import Mathlib

/-!
Shallow embedding of `src/uv_workspace_codegen/main.py` (the generalized
generator: discovery, config resolution, multi-template loading, rendering,
diff mode, and the stale-file sweep), together with theorems settling the
frozen claims about this program.

Modelling conventions:
* parsed TOML manifests become `Pyproject` values; a manifest file on disk is
  `Option (Except Unit Pyproject)` (absent / malformed / parsed);
* the Jinja engine is an external collaborator: a run is parametrized by a
  `render : String → Package → Except String String` function (template
  content and package context in, rendered text or a render failure out);
* a directory of files is an association list `List (String × String)`
  (filename, content); `os.walk` over the workspace is a rose tree.
-/

set_option linter.unusedVariables false

namespace UvCodegen

/-- First line of the autogenerated header; `_check_and_delete_stale_file`
looks for this marker in the first 500 characters of a candidate file. -/
def generatedMarker : String :=
  "# This file was automatically generated by uv-workspace-codegen"

/-- The `autogen_comment` prepended by `generate_workflow`. -/
def autogen_comment : String :=
  "# This file was automatically generated by uv-workspace-codegen\n" ++
  "# For more information, see: https://github.com/epoch8/uv-workspace-codegen/blob/master/README.md\n" ++
  "# Do not edit this file manually - changes will be overwritten\n\n"

/-- Outcome of `yaml.safe_load` on the `custom_steps` string: the key was
absent (or the string empty/falsy), it parsed to a step list (with
`or []` applied for a null document), or raised `YAMLError`. Step records
are opaque to the generator and modelled as strings. -/
inductive CustomStepsField where
  | absent
  | parsed (steps : List String)
  | malformed
deriving DecidableEq

/-- The `[tool.uv-workspace-codegen]` table of a `pyproject.toml`, with each
key optional (`dict.get` semantics). An absent table is indistinguishable
from an empty one in the code, so both are the all-`none` value. -/
structure ToolConfig where
  generate : Option Bool := none
  template_type : Option String := none
  generate_standard_pytest_step : Option Bool := none
  typechecker : Option String := none
  generate_typechecking_step : Option Bool := none
  generate_alembic_migration_check_step : Option Bool := none
  custom_steps : CustomStepsField := CustomStepsField.absent
  default_template_type : Option String := none
  template_dir : Option String := none
deriving DecidableEq

/-- A parsed `pyproject.toml`: the `project.name` field, the tool table, and
whether `tool.uv.workspace` is present (the workspace-root marker used by
`is_workspace_root`). -/
structure Pyproject where
  projectName : Option String := none
  tool : ToolConfig := {}
  hasUvWorkspace : Bool := false
deriving DecidableEq

/-- A manifest file slot in a directory: absent, malformed (raises
`TOMLDecodeError` when loaded), or parsed. -/
abbrev ManifestFile := Option (Except Unit Pyproject)

/-- A directory tree as walked by `os.walk`: name, optional
`pyproject.toml`, subdirectories. -/
inductive DirTree where
  | node (name : String) (manifest : ManifestFile) (children : List DirTree)

def DirTree.name : DirTree → String
  | .node n _ _ => n

def DirTree.manifest : DirTree → ManifestFile
  | .node _ m _ => m

def DirTree.children : DirTree → List DirTree
  | .node _ _ c => c

/-- The `Package` dataclass (with `__post_init__` applied: a `None`
`custom_steps` already replaced by `[]`). -/
structure Package where
  name : String
  path : String
  package_name : String
  template_type : String
  generate_standard_pytest_step : Bool
  typechecker : String
  generate_typechecking_step : Bool
  generate_alembic_migration_check_step : Bool
  custom_steps : List String
deriving DecidableEq

/-- `custom_steps` degradation: parse failure (or absence) yields `[]`. -/
def resolveCustomSteps : CustomStepsField → List String
  | .absent => []
  | .parsed s => s
  | .malformed => []

/-- Construction of the `Package` value inside `_discover_in_directory`:
layered resolution of `template_type`, name fallback to the directory
name, hyphen→underscore derivation, and per-field `dict.get` defaults. -/
def resolvePackage (pp : Pyproject) (wcfg : ToolConfig) (dirName : String)
    (relPath : String) : Package :=
  let gh := pp.tool
  let workspace_default_template_type := wcfg.default_template_type.getD "package"
  let config_template_type := gh.template_type.getD workspace_default_template_type
  let project_name := pp.projectName.getD dirName
  { name := project_name
    path := relPath
    package_name := project_name.replace "-" "_"
    template_type := config_template_type
    generate_standard_pytest_step := gh.generate_standard_pytest_step.getD false
    typechecker := gh.typechecker.getD "mypy"
    generate_typechecking_step := gh.generate_typechecking_step.getD true
    generate_alembic_migration_check_step :=
      gh.generate_alembic_migration_check_step.getD false
    custom_steps := resolveCustomSteps gh.custom_steps }

/-- `_discover_in_directory`: no manifest or a malformed manifest yields no
package (malformed prints a warning); a manifest whose tool table lacks a
truthy `generate` yields no package; otherwise one resolved `Package`,
whose `path` is `"."` for the workspace root. -/
def _discover_in_directory (manifest : ManifestFile) (dirName : String)
    (relPath : String) (wcfg : ToolConfig) (check_root : Bool) : List Package :=
  match manifest with
  | none => []
  | some (Except.error _) => []
  | some (Except.ok pp) =>
    if pp.tool.generate.getD false then
      [resolvePackage pp wcfg dirName (if check_root then "." else relPath)]
    else []

/-- `str(target_dir.relative_to(workspace_dir))` for a non-root directory. -/
def relPathStr (parts : List String) : String :=
  String.intercalate "/" parts

/-- The skip test of `discover_packages`: a relative-path component starting
with `.`, or `__pycache__` anywhere in the absolute path (the code checks
`root_path.parts`, i.e. the absolute parts `absParts ++ relParts`). -/
def excludedRel (absParts relParts : List String) : Bool :=
  relParts.any (fun p => p.startsWith ".") || (absParts ++ relParts).contains "__pycache__"

mutual

/-- The `os.walk` loop of `discover_packages`: each visited directory is
first tested with the skip condition (which also prunes its subtree via
`dirs[:] = []`); the workspace root itself (empty relative parts) is not
re-discovered by the walk. -/
def walkTree (absParts : List String) (wcfg : ToolConfig) :
    DirTree → List String → List Package
  | DirTree.node n mf children, relParts =>
    if excludedRel absParts relParts then []
    else
      (if relParts.isEmpty then []
       else _discover_in_directory mf n (relPathStr relParts) wcfg false) ++
      walkForest absParts wcfg children relParts

/-- Descent of the walk into a list of subdirectories, in order. -/
def walkForest (absParts : List String) (wcfg : ToolConfig) :
    List DirTree → List String → List Package
  | [], _ => []
  | c :: cs, relParts =>
    walkTree absParts wcfg c (relParts ++ [c.name]) ++
    walkForest absParts wcfg cs relParts

end

/-- `discover_packages`: the root directory is checked first with
`check_root=True`, then the recursive walk collects the rest. -/
def discover_packages (absParts : List String) (t : DirTree)
    (wcfg : ToolConfig) : List Package :=
  _discover_in_directory t.manifest t.name "." wcfg true ++
  walkTree absParts wcfg t []

mutual

/-- All directories of the tree in `os.walk` preorder, each with its
relative-path parts (the root has `[]`). Specification-side enumeration
used to characterize discovery. -/
def dirsTree : DirTree → List String → List (List String × DirTree)
  | DirTree.node n mf children, rel =>
    (rel, DirTree.node n mf children) :: dirsForest children rel

def dirsForest : List DirTree → List String → List (List String × DirTree)
  | [], _ => []
  | c :: cs, rel => dirsTree c (rel ++ [c.name]) ++ dirsForest cs rel

end

/-- `str(relative_path)` as reported in a `Package`: `"."` at the root. -/
def pathFor (rel : List String) : String :=
  if rel.isEmpty then "." else relPathStr rel

/-- `is_workspace_root`: the manifest exists, parses, and declares
`tool.uv.workspace`. -/
def is_workspace_root (m : ManifestFile) : Bool :=
  match m with
  | some (Except.ok pp) => pp.hasUvWorkspace
  | _ => false

/-- `get_workspace_config`: the root manifest's tool table, degrading to the
empty table when the file is absent or malformed. -/
def get_workspace_config (m : ManifestFile) : ToolConfig :=
  match m with
  | some (Except.ok pp) => pp.tool
  | _ => {}

/-- A flat directory of files: (name, content) pairs; a real filesystem has
no duplicate names. -/
abbrev FsDir := List (String × String)

/-- `open(path, "w")`: overwrite the entry in place if the name exists,
otherwise append a new entry. -/
def fsWrite (d : FsDir) (name content : String) : FsDir :=
  if d.any (fun e => e.1 = name) then
    d.map (fun e => if e.1 = name then (name, content) else e)
  else d ++ [(name, content)]

/-- A sequence of writes applied in order. -/
def applyWrites (d : FsDir) : List (String × String) → FsDir
  | [] => d
  | w :: ws => applyWrites (fsWrite d w.1 w.2) ws

/-- Python's `str.split(".")` on a character list: split at every `'.'`,
keeping empty segments. -/
def splitDots : List Char → List (List Char)
  | [] => [[]]
  | c :: rest =>
    if c = '.' then [] :: splitDots rest
    else
      match splitDots rest with
      | [] => [[c]]
      | h :: t => (c :: h) :: t

/-- The suffix-extraction of `load_templates` on one candidate filename:
`parts = name.split(".")` must be exactly
`[template_type, suffix, "template", "yml"]`. Filenames not of that shape
are ignored. -/
def extraTemplateSuffix (ty name : String) : Option String :=
  match splitDots name.data with
  | [a, s, b, c] =>
    if String.mk a = ty ∧ String.mk b = "template" ∧ String.mk c = "yml" then
      some (String.mk s)
    else none
  | _ => none

/-- The template discovery of `load_templates`: the primary
`{type}.template.yml` first (empty suffix), then every file of the
directory matching the `{type}.{suffix}.template.yml` shape, in directory
order (the glob's enumeration order). Extras are only searched when the
template directory exists. -/
def foundTemplates (ty : String) (tdir : Option FsDir) : List (String × String) :=
  let files := tdir.getD []
  (match files.lookup (ty ++ ".template.yml") with
   | some c => [("", c)]
   | none => []) ++
  (if tdir.isSome then
    files.filterMap (fun e => (extraTemplateSuffix ty e.1).map (fun s => (s, e.2)))
   else [])

/-- Result of `load_templates`: the `(suffix, template content)` list and the
template directory afterwards (materializing the bundled template may
create or extend it). -/
structure LoadOut where
  templates : List (String × String)
  tdir : Option FsDir
deriving DecidableEq

/-- `load_templates`: when no template matches and the type is `"package"`,
fall back to the bundled template — in-memory only in diff mode, written
into the template directory otherwise; when no template matches for any
other type, raise `FileNotFoundError` whose message names only the type. -/
def load_templates (ty : String) (tdir : Option FsDir) (bundled : Option String)
    (bundledPath : String) (diff_mode : Bool) : Except String LoadOut :=
  if (foundTemplates ty tdir).isEmpty ∧ ty = "package" then
    match bundled with
    | some b =>
      if diff_mode then Except.ok ⟨[("", b)], tdir⟩
      else Except.ok ⟨[("", b)], some (fsWrite (tdir.getD []) "package.template.yml" b)⟩
    | none => Except.error ("Bundled default template missing: " ++ bundledPath)
  else if (foundTemplates ty tdir).isEmpty then
    Except.error ("No templates found for type: " ++ ty)
  else
    Except.ok ⟨foundTemplates ty tdir, tdir⟩

/-- Output filename of `generate_workflow` for a package and suffix. -/
def workflow_filename (p : Package) (suffix : String) : String :=
  if suffix.isEmpty then p.template_type ++ "-" ++ p.name ++ ".yml"
  else p.template_type ++ "-" ++ suffix ++ "-" ++ p.name ++ ".yml"

/-- Result of `generate_workflow`: the returned path, the workflows
directory afterwards, and the observation logs — `written` holds the
(name, content) actually written in write mode, `compared` the
(name, new content) the unified diff compares against the existing file in
diff mode. -/
structure GenOut where
  path : String
  wfDir : Option FsDir
  written : List (String × String)
  compared : List (String × String)
deriving DecidableEq

/-- `generate_workflow`: render, prepend the banner, derive the filename;
in diff mode compute (and echo) a diff without touching the filesystem,
otherwise write the file. Render failures propagate to the caller. -/
def generate_workflow (render : String → Package → Except String String)
    (p : Package) (tmpl : String) (wfDir : Option FsDir) (diff_mode : Bool)
    (suffix : String) : Except String GenOut :=
  match render tmpl p with
  | Except.error e => Except.error e
  | Except.ok body =>
    if diff_mode then
      Except.ok ⟨workflow_filename p suffix, wfDir, [],
        [(workflow_filename p suffix, autogen_comment ++ body)]⟩
    else
      Except.ok ⟨workflow_filename p suffix,
        some (fsWrite (wfDir.getD []) (workflow_filename p suffix) (autogen_comment ++ body)),
        [(workflow_filename p suffix, autogen_comment ++ body)], []⟩

/-- The mutable state of `main`'s generation loop: the per-type template
cache, the `generated_files` accumulator, the two directories, and the
write/compare logs. -/
structure LoopSt where
  cache : List (String × List (String × String))
  generated : List String
  wfDir : Option FsDir
  tmplDir : Option FsDir
  written : List (String × String)
  compared : List (String × String)

/-- Outcome of the loop: normal completion, or the `except` branch of `main`
firing with the state reached so far (the run then returns 1 without
running the stale sweep). -/
inductive LoopOut where
  | ok (st : LoopSt)
  | fail (msg : String) (st : LoopSt)

/-- Inner loop of `main`: one `generate_workflow` call per (suffix,
template) pair, appending the returned path to `generated_files` in both
modes. -/
def processTemplates (render : String → Package → Except String String)
    (diff : Bool) (p : Package) :
    List (String × String) → LoopSt → LoopOut
  | [], st => LoopOut.ok st
  | (suffix, tmpl) :: rest, st =>
    match generate_workflow render p tmpl st.wfDir diff suffix with
    | Except.error e => LoopOut.fail e st
    | Except.ok g =>
      processTemplates render diff p rest
        { st with generated := st.generated ++ [g.path]
                  wfDir := g.wfDir
                  written := st.written ++ g.written
                  compared := st.compared ++ g.compared }

/-- Per-package body of `main`'s loop: load (and cache) the package's
template set, then generate each template. -/
def processPackage (render : String → Package → Except String String)
    (bundled : Option String) (bundledPath : String) (diff : Bool)
    (st : LoopSt) (p : Package) : LoopOut :=
  match st.cache.lookup p.template_type with
  | some tmpls => processTemplates render diff p tmpls st
  | none =>
    match load_templates p.template_type st.tmplDir bundled bundledPath diff with
    | Except.error e => LoopOut.fail e st
    | Except.ok lo =>
      processTemplates render diff p lo.templates
        { st with cache := st.cache ++ [(p.template_type, lo.templates)]
                  tmplDir := lo.tdir }

/-- The whole package loop, aborting at the first failure. -/
def processAll (render : String → Package → Except String String)
    (bundled : Option String) (bundledPath : String) (diff : Bool) :
    List Package → LoopSt → LoopOut
  | [], st => LoopOut.ok st
  | p :: ps, st =>
    match processPackage render bundled bundledPath diff st p with
    | LoopOut.fail e st' => LoopOut.fail e st'
    | LoopOut.ok st' => processAll render bundled bundledPath diff ps st'

/-- `output_dir.glob("*.yml")` membership. -/
def isYml (n : String) : Bool := n.endsWith ".yml"

/-- `output_dir.glob("*.yaml")` membership. -/
def isYaml (n : String) : Bool := n.endsWith ".yaml"

/-- Substring occurrence on character lists (Python's `in` on strings). -/
def occursIn (pat : List Char) : List Char → Bool
  | [] => pat.isEmpty
  | c :: rest => pat.isPrefixOf (c :: rest) || occursIn pat rest

/-- The banner test of `_check_and_delete_stale_file`: the marker occurs in
`f.read(500)`, the first 500 characters of the file. -/
def hasBannerMarker (content : String) : Bool :=
  occursIn generatedMarker.data (content.data.take 500)

/-- The candidate enumeration of `cleanup_stale_workflows`: the `*.yml` glob
followed by the `*.yaml` glob, over the top level of the output directory. -/
def staleCandidates (files : FsDir) : FsDir :=
  files.filter (fun e => isYml e.1) ++ files.filter (fun e => isYaml e.1)

/-- Staleness of one candidate: not just generated, and carrying the banner
marker in its leading bytes. -/
def isStale (generated : List String) (e : String × String) : Bool :=
  !(generated.contains e.1) && hasBannerMarker e.2

/-- Names the sweep deletes (write mode) or reports (diff mode). -/
def staleNames (files : FsDir) (generated : List String) : List String :=
  ((staleCandidates files).filter (isStale generated)).map (fun e => e.1)

/-- `cleanup_stale_workflows`: returns the directory afterwards, the deleted
names, and the would-be-deleted names reported in diff mode. `unlink`
removes a file by name, so the loop amounts to filtering the stale names
out of the directory; a missing directory yields empty globs. -/
def cleanup_stale_workflows (wfDir : Option FsDir) (generated : List String)
    (diff_mode : Bool) : Option FsDir × List String × List String :=
  if diff_mode then (wfDir, ([], staleNames (wfDir.getD []) generated))
  else
    (wfDir.map (fun l =>
        l.filter (fun e => !((staleNames (wfDir.getD []) generated).contains e.1))),
      (staleNames (wfDir.getD []) generated, []))

/-- The filesystem state a run touches: the workflows output directory and
the template directory (`none` = the directory does not exist). The
workspace tree with its manifests is separate, read-only input. -/
structure RunFs where
  workflowsDir : Option FsDir
  templatesDir : Option FsDir
deriving DecidableEq

/-- Inputs of one CLI invocation: whether an explicit root argument was
given, the workspace tree, the absolute path parts of the workspace
directory, the bundled template shipped with the tool, and the rendering
engine. -/
structure RunInput where
  rootGiven : Bool
  tree : DirTree
  absParts : List String
  bundled : Option String
  bundledPath : String
  render : String → Package → Except String String

/-- Observable outcome of `main`: exit code, final filesystem, and the
write/compare/delete logs. -/
structure RunResult where
  exitCode : Nat
  fs : RunFs
  written : List (String × String)
  compared : List (String × String)
  removed : List String
  wouldRemove : List String

/-- Packages discovered by a run (root detection and workspace config come
from the root manifest). -/
def mainPackages (inp : RunInput) : List Package :=
  discover_packages inp.absParts inp.tree (get_workspace_config inp.tree.manifest)

/-- The workflows directory after the `mkdir(parents=True, exist_ok=True)`
that write mode performs before the loop. -/
def mainFsAfterMkdir (fs0 : RunFs) (diff : Bool) : RunFs :=
  if diff then fs0 else { fs0 with workflowsDir := some (fs0.workflowsDir.getD []) }

/-- The generation loop of `main`, started from the empty cache. -/
def mainLoop (inp : RunInput) (fs0 : RunFs) (diff : Bool) : LoopOut :=
  processAll inp.render inp.bundled inp.bundledPath diff (mainPackages inp)
    { cache := [], generated := [], wfDir := (mainFsAfterMkdir fs0 diff).workflowsDir,
      tmplDir := fs0.templatesDir, written := [], compared := [] }

/-- `main`: validate an explicit root (exit 1 before any other action when it
is not a workspace root), create the output directory in write mode,
discover, generate, and sweep; a loop failure exits 1 with the sweep
skipped. -/
def main (inp : RunInput) (fs0 : RunFs) (diff : Bool) : RunResult :=
  if inp.rootGiven && !(is_workspace_root inp.tree.manifest) then
    { exitCode := 1, fs := fs0, written := [], compared := [],
      removed := [], wouldRemove := [] }
  else
    match mainLoop inp fs0 diff with
    | LoopOut.fail _ st =>
      { exitCode := 1, fs := { workflowsDir := st.wfDir, templatesDir := st.tmplDir },
        written := st.written, compared := st.compared, removed := [], wouldRemove := [] }
    | LoopOut.ok st =>
      { exitCode := 0,
        fs := { workflowsDir := (cleanup_stale_workflows st.wfDir st.generated diff).1,
                templatesDir := st.tmplDir },
        written := st.written, compared := st.compared,
        removed := (cleanup_stale_workflows st.wfDir st.generated diff).2.1,
        wouldRemove := (cleanup_stale_workflows st.wfDir st.generated diff).2.2 }

/-- Substring test used to examine error messages. -/
def strContains (s pat : String) : Bool :=
  occursIn pat.data s.data

/-- State carried by a loop outcome (final on success, partial on failure). -/
def LoopOut.st : LoopOut → LoopSt
  | .ok st => st
  | .fail _ st => st

/-- `d2` has (at least) every filename of `d1`: no file present in `d1` was
removed in `d2`. -/
def keysIncl (d1 d2 : Option FsDir) : Prop :=
  ∀ n c, (n, c) ∈ d1.getD [] → ∃ c', (n, c') ∈ d2.getD []

/-! ### Concrete fixtures used by witnesses -/

/-- A root manifest opting in with template type `"lib"`. -/
def fixturePyLib : Pyproject where
  projectName := some "my-lib"
  tool := { generate := some true, template_type := some "lib" }
  hasUvWorkspace := true

/-- A root manifest that is a workspace root but does not opt in. -/
def fixturePyNoGen : Pyproject where
  projectName := some "plain"
  tool := {}
  hasUvWorkspace := true

/-- A root manifest opting in with the default template type. -/
def fixturePyDefault : Pyproject where
  projectName := some "a-b"
  tool := { generate := some true }
  hasUvWorkspace := true

def fixtureTreeLib : DirTree := DirTree.node "ws" (some (Except.ok fixturePyLib)) []

def fixtureTreeNoGen : DirTree := DirTree.node "ws" (some (Except.ok fixturePyNoGen)) []

def fixtureTreeDefault : DirTree := DirTree.node "ws" (some (Except.ok fixturePyDefault)) []

/-- A rendering engine for fixtures: template content next to the package
identifier. -/
def fixtureRender : String → Package → Except String String :=
  fun t p => Except.ok (t ++ "|" ++ p.package_name)

def fixtureInpLib : RunInput where
  rootGiven := false
  tree := fixtureTreeLib
  absParts := ["home"]
  bundled := none
  bundledPath := "bp"
  render := fixtureRender

def fixtureInpNoGen : RunInput where
  rootGiven := false
  tree := fixtureTreeNoGen
  absParts := ["home"]
  bundled := none
  bundledPath := "bp"
  render := fixtureRender

def fixtureInpDefault : RunInput where
  rootGiven := false
  tree := fixtureTreeDefault
  absParts := ["home"]
  bundled := some "BUNDLED"
  bundledPath := "bp"
  render := fixtureRender

/-- Empty template directory present, no workflows directory. -/
def fixtureFsEmpty : RunFs where
  workflowsDir := none
  templatesDir := some []

/-- Nothing on disk yet. -/
def fixtureFsNone : RunFs where
  workflowsDir := none
  templatesDir := none

/-- Inverse of `splitDots`: interleave the segments with `'.'`. -/
def joinDots : List (List Char) → List Char
  | [] => []
  | [p] => p
  | p :: ps => p ++ '.' :: joinDots ps

/-- A resolved package with template type `"ci"`, as produced for a manifest
with `generate = true` and `template_type = "ci"` and no other settings. -/
def fixturePkgCi : Package where
  name := "my-lib"
  path := "."
  package_name := "my_lib"
  template_type := "ci"
  generate_standard_pytest_step := false
  typechecker := "mypy"
  generate_typechecking_step := true
  generate_alembic_migration_check_step := false
  custom_steps := []

/-- Loop state whose template directory holds a primary `ci` template, an
`extra` variant, and a malformed name with an extra dot segment. -/
def fixtureLoopCi : LoopSt where
  cache := []
  generated := []
  wfDir := none
  tmplDir := some [("ci" ++ ".template.yml", "T1"),
                   ("ci" ++ "." ++ "extra" ++ ".template.yml", "T2"),
                   ("ci.a.b.template.yml", "J")]
  written := []
  compared := []

/-- Specification-side selection rule for discovery: a directory (given with
its workspace-relative path parts) yields a package exactly when no
component of its relative path is hidden or `__pycache__` and its manifest
parses with the generate flag explicitly `true`; the package is the layered
resolution of that manifest. -/
def discoverySpecPick (wcfg : ToolConfig) (pr : List String × DirTree) : Option Package :=
  match pr.2.manifest with
  | some (Except.ok pp) =>
    if (pr.1.any (fun s => s.startsWith ".")) = false
        ∧ pr.1.contains "__pycache__" = false
        ∧ pp.tool.generate = some true then
      some (resolvePackage pp wcfg pr.2.name (pathFor pr.1))
    else none
  | _ => none

/-- A workspace tree exercising discovery: an eligible nested package, a
manifest-less directory, a hidden directory with an (ignored) eligible
manifest inside, a `__pycache__` subtree, and a malformed manifest. -/
def fixtureTreeDisc : DirTree :=
  DirTree.node "ws" (some (Except.ok fixturePyDefault))
    [DirTree.node "libs" none
      [DirTree.node "mylib" (some (Except.ok fixturePyLib)) []],
     DirTree.node ".hidden" (some (Except.ok fixturePyLib))
      [DirTree.node "inner" (some (Except.ok fixturePyLib)) []],
     DirTree.node "__pycache__" (some (Except.ok fixturePyLib)) [],
     DirTree.node "broken" (some (Except.error ())) []]

/-- Relation between the template directories seen by a diff-mode run and a
write-mode run on the same inputs: either they are equal, or the write-mode
run has additionally materialized the bundled `package.template.yml` (which
only happens once the `"package"` type is cached). -/
def TmplRel (b : Option String) (cache : List (String × List (String × String)))
    (dt wt : Option FsDir) : Prop :=
  wt = dt ∨ ∃ bc, b = some bc ∧ (cache.lookup "package").isSome = true ∧
    wt = some ((dt.getD []) ++ [("package.template.yml", bc)])

/-- Simulation invariant between the loop state `d` of a diff-mode run and
the loop state `w` of a write-mode run started from the same filesystem
(`fs0wf` is the initial workflows directory): both runs agree on the
template cache and the generation set, what diff mode compares is exactly
what write mode has written, diff mode has touched nothing, and write
mode's directory is the initial one plus its writes (all named in the
generation set). -/
def ModeRel (b : Option String) (fs0wf : Option FsDir) (d w : LoopSt) : Prop :=
  d.cache = w.cache ∧
  d.generated = w.generated ∧
  d.compared = w.written ∧
  d.written = [] ∧
  w.compared = [] ∧
  d.wfDir = fs0wf ∧
  w.wfDir = some (applyWrites (fs0wf.getD []) w.written) ∧
  w.written.map Prod.fst = w.generated ∧
  TmplRel b d.cache d.tmplDir w.tmplDir

/-- The invariant lifted to loop outcomes: both runs succeed in relation, or
both fail with the same message in relation. -/
def RelOut (b : Option String) (fs0wf : Option FsDir) : LoopOut → LoopOut → Prop
  | LoopOut.ok d, LoopOut.ok w => ModeRel b fs0wf d w
  | LoopOut.fail e d, LoopOut.fail e2 w => e = e2 ∧ ModeRel b fs0wf d w
  | _, _ => False

/-- Where a write-mode run's template directory can stand, relative to its
initial value `t0`: still untouched, or extended by the materialized
bundled template — the latter only after a `"package"` load that found
nothing, which also put `"package"` into the cache. -/
def Td1 (b : Option String) (t0 : Option FsDir)
    (cache : List (String × List (String × String))) (t1 : Option FsDir) : Prop :=
  t1 = t0 ∨ ∃ bc, b = some bc ∧ foundTemplates "package" t0 = [] ∧
    (cache.lookup "package").isSome = true ∧
    t1 = some ((t0.getD []) ++ [("package.template.yml", bc)])

/-- Relation between the template directories of a first write-mode run
(`t1`, started at `t0` and evolving) and of a second write-mode run
started from the first run's final template directory (`t2`, never
changed by the second run): both still at `t0`, or the second run already
holds the materialized bundled template the first run has yet to create,
or both hold it. -/
def TdRel (b : Option String) (t0 : Option FsDir)
    (cache : List (String × List (String × String))) (t1 t2 : Option FsDir) : Prop :=
  (t1 = t0 ∧ t2 = t0) ∨
  (∃ bc, b = some bc ∧ foundTemplates "package" t0 = [] ∧ t1 = t0 ∧
    cache.lookup "package" = none ∧
    t2 = some ((t0.getD []) ++ [("package.template.yml", bc)])) ∨
  (∃ bc, b = some bc ∧ foundTemplates "package" t0 = [] ∧
    (cache.lookup "package").isSome = true ∧
    t1 = some ((t0.getD []) ++ [("package.template.yml", bc)]) ∧
    t2 = some ((t0.getD []) ++ [("package.template.yml", bc)]))

/-- Simulation invariant between corresponding loop states of two
consecutive write-mode runs over the same package list: caches, generation
sets and write logs agree, the second run's workflows directory is its
starting directory `base2` plus its writes (all named in the generation
set), and the template directories are related by `TdRel`. -/
def IdemRel (b : Option String) (t0 : Option FsDir) (base2 : FsDir)
    (s1 s2 : LoopSt) : Prop :=
  s2.cache = s1.cache ∧
  s2.generated = s1.generated ∧
  s2.written = s1.written ∧
  s2.wfDir = some (applyWrites base2 s2.written) ∧
  s2.written.map Prod.fst = s2.generated ∧
  TdRel b t0 s1.cache s1.tmplDir s2.tmplDir

/-- `IdemRel` lifted to loop outcomes. -/
def IdemOut (b : Option String) (t0 : Option FsDir) (base2 : FsDir) :
    LoopOut → LoopOut → Prop
  | LoopOut.ok s1, LoopOut.ok s2 => IdemRel b t0 base2 s1 s2
  | LoopOut.fail e s1, LoopOut.fail e2 s2 => e = e2 ∧ IdemRel b t0 base2 s1 s2
  | _, _ => False

/-! ### Basic lemmas about the filesystem model -/

theorem keys_unique {files : FsDir} (hnd : (files.map Prod.fst).Nodup)
    {n c c' : String} (h1 : (n, c) ∈ files) (h2 : (n, c') ∈ files) : c = c' := by
  induction files with
  | nil => cases h1
  | cons e rest ih =>
    simp only [List.map_cons, List.nodup_cons] at hnd
    rcases List.mem_cons.1 h1 with h1 | h1 <;> rcases List.mem_cons.1 h2 with h2 | h2
    · injection h1.trans h2.symm
    · exfalso
      have hm2 : n ∈ rest.map Prod.fst := List.mem_map_of_mem Prod.fst h2
      rw [← h1] at hnd
      exact hnd.1 hm2
    · exfalso
      have hm1 : n ∈ rest.map Prod.fst := List.mem_map_of_mem Prod.fst h1
      rw [← h2] at hnd
      exact hnd.1 hm1
    · exact ih hnd.2 h1 h2

/-- Membership in the sweep's deletion list, characterized per entry. -/
theorem stale_name_mem (files : FsDir) (gen : List String) (name : String) :
    name ∈ staleNames files gen ↔
      ∃ c, (name, c) ∈ files ∧ (isYml name || isYaml name) = true ∧
        isStale gen (name, c) = true := by
  unfold staleNames
  constructor
  · intro h
    obtain ⟨e, he, rfl⟩ := List.mem_map.1 h
    obtain ⟨hcand, hstale⟩ := List.mem_filter.1 he
    unfold staleCandidates at hcand
    rcases List.mem_append.1 hcand with hc | hc
    · obtain ⟨hm, hy⟩ := List.mem_filter.1 hc
      exact ⟨e.2, hm, by rw [hy, Bool.true_or], hstale⟩
    · obtain ⟨hm, hy⟩ := List.mem_filter.1 hc
      exact ⟨e.2, hm, by rw [hy, Bool.or_true], hstale⟩
  · rintro ⟨c, hm, hy, hstale⟩
    refine List.mem_map.2 ⟨(name, c), List.mem_filter.2 ⟨?_, hstale⟩, rfl⟩
    unfold staleCandidates
    rcases (Bool.or_eq_true _ _) ▸ hy with hy' | hy'
    · exact List.mem_append.2 (Or.inl (List.mem_filter.2 ⟨hm, hy'⟩))
    · exact List.mem_append.2 (Or.inr (List.mem_filter.2 ⟨hm, hy'⟩))

/-! ### Claim C1 -/

/-- C1: the stale-file sweep deletes a file if and only if it is a top-level
`.yml`/`.yaml` file of the output directory whose leading 500 characters
contain the generated-file banner marker and whose name is not in the
current run's generation set; a file whose leading bytes lack the marker is
never deleted, regardless of its name or extension. -/
theorem stale_sweep_deletes_iff (files : FsDir) (gen : List String)
    (hnd : (files.map Prod.fst).Nodup) (name content : String)
    (hmem : (name, content) ∈ files) :
    (name ∈ staleNames files gen ↔
      (isYml name || isYaml name) = true ∧ hasBannerMarker content = true ∧
        name ∉ gen)
    ∧ (hasBannerMarker content = false →
        (name, content) ∈ ((cleanup_stale_workflows (some files) gen false).1.getD [])) := by
  have hchar : name ∈ staleNames files gen ↔
      (isYml name || isYaml name) = true ∧ hasBannerMarker content = true ∧ name ∉ gen := by
    rw [stale_name_mem]
    constructor
    · rintro ⟨c, hm, hy, hstale⟩
      obtain rfl : content = c := keys_unique hnd hmem hm
      unfold isStale at hstale
      rcases Bool.and_eq_true_iff.1 hstale with ⟨hng, hb⟩
      refine ⟨hy, hb, fun hg => ?_⟩
      rw [Bool.not_eq_true', ← Bool.not_eq_true] at hng
      exact hng (List.elem_iff.2 hg)
    · rintro ⟨hy, hb, hng⟩
      refine ⟨content, hmem, hy, ?_⟩
      unfold isStale
      rw [Bool.and_eq_true_iff]
      refine ⟨?_, hb⟩
      rw [Bool.not_eq_true', ← Bool.not_eq_true]
      exact fun hc => hng (List.elem_iff.1 hc)
  refine ⟨hchar, fun hb => ?_⟩
  have hns : name ∉ staleNames files gen := by
    intro hmem'
    have hcontra := (hchar.1 hmem').2.1
    rw [hb] at hcontra
    exact absurd hcontra (by decide)
  have hcont : (staleNames files gen).contains name = false :=
    Bool.eq_false_iff.2 (fun hc => hns (List.elem_iff.1 hc))
  have hcl : ((cleanup_stale_workflows (some files) gen false).1.getD []) =
      files.filter (fun e => !((staleNames files gen).contains e.1)) := rfl
  rw [hcl]
  refine List.mem_filter.2 ⟨hmem, ?_⟩
  have hred : (staleNames files gen).contains (name, content).1 = false := hcont
  rw [hred]
  rfl

/-- Witness for C1 at a concrete directory. -/
theorem stale_sweep_deletes_iff_witness :
    (("hand.yml" ∈ staleNames [("hand.yml", "x")] [] ↔
      (isYml "hand.yml" || isYaml "hand.yml") = true ∧
        hasBannerMarker "x" = true ∧ "hand.yml" ∉ ([] : List String))
    ∧ (hasBannerMarker "x" = false →
        ("hand.yml", "x") ∈
          ((cleanup_stale_workflows (some [("hand.yml", "x")]) [] false).1.getD []))) :=
  stale_sweep_deletes_iff [("hand.yml", "x")] [] (by decide) "hand.yml" "x" (by decide)

/-! ### Diff-mode invariance lemmas -/

theorem generate_workflow_diff_st (render : String → Package → Except String String)
    (p : Package) (tmpl : String) (wfDir : Option FsDir) (suffix : String)
    (g : GenOut) (h : generate_workflow render p tmpl wfDir true suffix = Except.ok g) :
    g.wfDir = wfDir ∧ g.written = [] := by
  unfold generate_workflow at h
  cases hr : render tmpl p with
  | error e => rw [hr] at h; cases h
  | ok body =>
    rw [hr] at h
    injection h with h
    rw [← h]
    exact ⟨rfl, rfl⟩

theorem load_templates_diff_tdir (ty : String) (tdir : Option FsDir)
    (b : Option String) (bp : String) (lo : LoadOut)
    (h : load_templates ty tdir b bp true = Except.ok lo) : lo.tdir = tdir := by
  unfold load_templates at h
  by_cases hc : ((foundTemplates ty tdir).isEmpty = true ∧ ty = "package")
  · rw [if_pos hc] at h
    cases b with
    | none => cases h
    | some bb =>
      injection h with h
      rw [← h]
  · rw [if_neg hc] at h
    by_cases he : (foundTemplates ty tdir).isEmpty = true
    · rw [if_pos he] at h; cases h
    · rw [if_neg he] at h
      injection h with h
      rw [← h]

theorem processTemplates_diff (render : String → Package → Except String String)
    (p : Package) (ts : List (String × String)) (st : LoopSt) :
    ((processTemplates render true p ts st).st.wfDir = st.wfDir)
    ∧ ((processTemplates render true p ts st).st.tmplDir = st.tmplDir)
    ∧ ((processTemplates render true p ts st).st.written = st.written) := by
  induction ts generalizing st with
  | nil => exact ⟨rfl, rfl, rfl⟩
  | cons e rest ih =>
    obtain ⟨suffix, tmpl⟩ := e
    unfold processTemplates
    cases hg : generate_workflow render p tmpl st.wfDir true suffix with
    | error e2 => exact ⟨rfl, rfl, rfl⟩
    | ok g =>
      obtain ⟨hw, hwr⟩ := generate_workflow_diff_st render p tmpl st.wfDir suffix g hg
      have hrec := ih
        { st with generated := st.generated ++ [g.path]
                  wfDir := g.wfDir
                  written := st.written ++ g.written
                  compared := st.compared ++ g.compared }
      refine ⟨hrec.1.trans hw, hrec.2.1, hrec.2.2.trans ?_⟩
      rw [hwr]
      exact List.append_nil _

theorem processPackage_diff (render : String → Package → Except String String)
    (b : Option String) (bp : String) (st : LoopSt) (p : Package) :
    ((processPackage render b bp true st p).st.wfDir = st.wfDir)
    ∧ ((processPackage render b bp true st p).st.tmplDir = st.tmplDir)
    ∧ ((processPackage render b bp true st p).st.written = st.written) := by
  unfold processPackage
  cases hc : st.cache.lookup p.template_type with
  | some tmpls => exact processTemplates_diff render p tmpls st
  | none =>
    cases hl : load_templates p.template_type st.tmplDir b bp true with
    | error e => exact ⟨rfl, rfl, rfl⟩
    | ok lo =>
      have htd := load_templates_diff_tdir _ _ _ _ lo hl
      have hrec := processTemplates_diff render p lo.templates
        { st with cache := st.cache ++ [(p.template_type, lo.templates)], tmplDir := lo.tdir }
      exact ⟨hrec.1, hrec.2.1.trans htd, hrec.2.2⟩

theorem processAll_diff (render : String → Package → Except String String)
    (b : Option String) (bp : String) (ps : List Package) (st : LoopSt) :
    ((processAll render b bp true ps st).st.wfDir = st.wfDir)
    ∧ ((processAll render b bp true ps st).st.tmplDir = st.tmplDir)
    ∧ ((processAll render b bp true ps st).st.written = st.written) := by
  induction ps generalizing st with
  | nil => exact ⟨rfl, rfl, rfl⟩
  | cons p ps ih =>
    unfold processAll
    cases hp : processPackage render b bp true st p with
    | fail e st' =>
      have h1 := processPackage_diff render b bp st p
      rw [hp] at h1
      exact h1
    | ok st' =>
      have h1 := processPackage_diff render b bp st p
      rw [hp] at h1
      have h2 := ih st'
      exact ⟨h2.1.trans h1.1, h2.2.1.trans h1.2.1, h2.2.2.trans h1.2.2⟩

/-! ### Claim C2 -/

/-- C2: a diff-preview run performs no filesystem mutation at all — the final
filesystem (workflows directory and template directory, including their
existence) equals the initial one, nothing is written, and nothing is
deleted; in particular the bundled template is never materialized. -/
theorem diff_mode_no_fs_effects (inp : RunInput) (fs0 : RunFs) :
    (main inp fs0 true).fs = fs0 ∧ (main inp fs0 true).written = []
    ∧ (main inp fs0 true).removed = [] := by
  have hloop : ((mainLoop inp fs0 true).st.wfDir = fs0.workflowsDir)
      ∧ ((mainLoop inp fs0 true).st.tmplDir = fs0.templatesDir)
      ∧ ((mainLoop inp fs0 true).st.written = []) :=
    processAll_diff inp.render inp.bundled inp.bundledPath (mainPackages inp) _
  unfold main
  by_cases hroot : (inp.rootGiven && !(is_workspace_root inp.tree.manifest)) = true
  · rw [if_pos hroot]
    exact ⟨rfl, rfl, rfl⟩
  · rw [if_neg hroot]
    cases hML : mainLoop inp fs0 true with
    | fail e st =>
      rw [hML] at hloop
      refine ⟨?_, hloop.2.2, rfl⟩
      have h1 : st.wfDir = fs0.workflowsDir := hloop.1
      have h2 : st.tmplDir = fs0.templatesDir := hloop.2.1
      show RunFs.mk st.wfDir st.tmplDir = fs0
      rw [h1, h2]
    | ok st =>
      rw [hML] at hloop
      refine ⟨?_, hloop.2.2, rfl⟩
      have h1 : st.wfDir = fs0.workflowsDir := hloop.1
      have h2 : st.tmplDir = fs0.templatesDir := hloop.2.1
      show RunFs.mk (cleanup_stale_workflows st.wfDir st.generated true).1 st.tmplDir = fs0
      rw [show (cleanup_stale_workflows st.wfDir st.generated true).1 = st.wfDir from rfl]
      rw [h1, h2]

/-! ### Claim C5 -/

/-- C5 counterexample: when no template exists for type `"lib"`, the raised
condition's message is exactly `"No templates found for type: lib"`; it
names the type but not the directory searched (here the default
`.github/workflow-templates`), so the claim that the condition identifies
"the type and the directory searched" is false at this input. -/
theorem template_not_found_names_type_only :
    load_templates "lib" (some []) none "bp" false =
      Except.error ("No templates found for type: " ++ "lib")
    ∧ strContains ("No templates found for type: " ++ "lib")
        ".github/workflow-templates" = false := by
  constructor
  · rfl
  · decide

/-- C5 (amended): zero templates for a non-default type fail loading with a
`FileNotFoundError` naming the type (but not the directory searched), and
any loop failure aborts the run with exit 1; zero templates for the
designated default type `"package"` fall back to the bundled template and
succeed (in-memory in diff mode, materialized in write mode). -/
theorem template_loading_failure_and_fallback :
    (∀ (ty : String) (tdir : Option FsDir) (b : Option String) (bp : String) (m : Bool),
      ty ≠ "package" → foundTemplates ty tdir = [] →
      load_templates ty tdir b bp m = Except.error ("No templates found for type: " ++ ty))
    ∧ (∀ (tdir : Option FsDir) (bc : String) (bp : String),
      foundTemplates "package" tdir = [] →
      load_templates "package" tdir (some bc) bp true = Except.ok ⟨[("", bc)], tdir⟩
      ∧ load_templates "package" tdir (some bc) bp false =
          Except.ok ⟨[("", bc)], some (fsWrite (tdir.getD []) "package.template.yml" bc)⟩)
    ∧ (∀ (inp : RunInput) (fs0 : RunFs) (m : Bool),
      (∃ e st, mainLoop inp fs0 m = LoopOut.fail e st) →
      (main inp fs0 m).exitCode = 1) := by
  refine ⟨?_, ?_, ?_⟩
  · intro ty tdir b bp m hty hfound
    unfold load_templates
    rw [if_neg (fun hc => hty hc.2)]
    rw [if_pos (by rw [hfound]; rfl)]
  · intro tdir bc bp hfound
    constructor
    · unfold load_templates
      rw [if_pos ⟨by rw [hfound]; rfl, rfl⟩]
      rfl
    · unfold load_templates
      rw [if_pos ⟨by rw [hfound]; rfl, rfl⟩]
      rfl
  · rintro inp fs0 m ⟨e, st, hML⟩
    unfold main
    by_cases hroot : (inp.rootGiven && !(is_workspace_root inp.tree.manifest)) = true
    · rw [if_pos hroot]
    · rw [if_neg hroot, hML]

/-- Witness for C5 at concrete inputs: a missing `"lib"` template set errors
with the type-naming message; the `"package"` fallback succeeds on the
bundled template; a run whose loop fails exits 1. -/
theorem template_loading_failure_and_fallback_witness :
    load_templates "lib" none none "bp" false =
        Except.error ("No templates found for type: " ++ "lib")
    ∧ (load_templates "package" none (some "B") "bp" true = Except.ok ⟨[("", "B")], none⟩
       ∧ load_templates "package" none (some "B") "bp" false =
           Except.ok ⟨[("", "B")], some (fsWrite ((none : Option FsDir).getD []) "package.template.yml" "B")⟩)
    ∧ (main fixtureInpLib fixtureFsEmpty false).exitCode = 1 :=
  ⟨template_loading_failure_and_fallback.1 "lib" none none "bp" false (by decide) rfl,
   template_loading_failure_and_fallback.2.1 none "B" "bp" rfl,
   template_loading_failure_and_fallback.2.2 fixtureInpLib fixtureFsEmpty false ⟨_, _, rfl⟩⟩

/-! ### Claim C7 -/

/-- C7: configuration resolution is strictly layered — `template_type` is
per-package setting, else workspace `default_template_type`, else
`"package"`; and absent per-package settings resolve `typechecker` to
`"mypy"`, the typechecking step to on, the pytest step and the migration
check to off. -/
theorem config_resolution_layering (pp : Pyproject) (wcfg : ToolConfig)
    (dirName relPath : String) (check_root : Bool)
    (hgen : pp.tool.generate = some true) :
    ∃ p, _discover_in_directory (some (Except.ok pp)) dirName relPath wcfg check_root = [p]
      ∧ p.template_type = pp.tool.template_type.getD (wcfg.default_template_type.getD "package")
      ∧ (pp.tool.typechecker = none → p.typechecker = "mypy")
      ∧ (pp.tool.generate_typechecking_step = none → p.generate_typechecking_step = true)
      ∧ (pp.tool.generate_standard_pytest_step = none → p.generate_standard_pytest_step = false)
      ∧ (pp.tool.generate_alembic_migration_check_step = none →
          p.generate_alembic_migration_check_step = false) := by
  refine ⟨resolvePackage pp wcfg dirName (if check_root then "." else relPath),
    ?_, rfl, ?_, ?_, ?_, ?_⟩
  · have hred : _discover_in_directory (some (Except.ok pp)) dirName relPath wcfg check_root =
        (if pp.tool.generate.getD false = true then
          [resolvePackage pp wcfg dirName (if check_root then "." else relPath)]
         else []) := rfl
    rw [hred, hgen]
    rfl
  · intro h; simp [resolvePackage, h]
  · intro h; simp [resolvePackage, h]
  · intro h; simp [resolvePackage, h]
  · intro h; simp [resolvePackage, h]

/-- Witness for C7 on a manifest with only the opt-in flag set. -/
theorem config_resolution_layering_witness :
    ∃ p, _discover_in_directory (some (Except.ok fixturePyDefault)) "dir" "sub" {} false = [p]
      ∧ p.template_type =
          fixturePyDefault.tool.template_type.getD
            (({} : ToolConfig).default_template_type.getD "package")
      ∧ (fixturePyDefault.tool.typechecker = none → p.typechecker = "mypy")
      ∧ (fixturePyDefault.tool.generate_typechecking_step = none →
          p.generate_typechecking_step = true)
      ∧ (fixturePyDefault.tool.generate_standard_pytest_step = none →
          p.generate_standard_pytest_step = false)
      ∧ (fixturePyDefault.tool.generate_alembic_migration_check_step = none →
          p.generate_alembic_migration_check_step = false) :=
  config_resolution_layering fixturePyDefault {} "dir" "sub" false rfl

/-! ### Claim C8 -/

/-- C8: the CLI exits 1 when an explicitly supplied root fails workspace-root
validation; exits 0 when the generation loop completes (in particular with
zero discovered packages the loop is empty and succeeds); and exits 1
whenever the loop aborts on a per-package failure (template missing or
render failure). -/
theorem cli_exit_codes (inp : RunInput) (fs0 : RunFs) (m : Bool) :
    (inp.rootGiven = true → is_workspace_root inp.tree.manifest = false →
      (main inp fs0 m).exitCode = 1)
    ∧ ((inp.rootGiven = false ∨ is_workspace_root inp.tree.manifest = true) →
      (∃ st, mainLoop inp fs0 m = LoopOut.ok st) → (main inp fs0 m).exitCode = 0)
    ∧ ((∃ e st, mainLoop inp fs0 m = LoopOut.fail e st) → (main inp fs0 m).exitCode = 1) := by
  refine ⟨?_, ?_, ?_⟩
  · intro hg hws
    unfold main
    rw [if_pos (by rw [hg, hws]; rfl)]
  · rintro hok ⟨st, hML⟩
    have hcond : (inp.rootGiven && !(is_workspace_root inp.tree.manifest)) = false := by
      rcases hok with h | h
      · rw [h]; rfl
      · rw [h]
        exact Bool.and_false _
    unfold main
    rw [if_neg (by rw [hcond]; exact Bool.false_ne_true), hML]
  · rintro ⟨e, st, hML⟩
    unfold main
    by_cases hroot : (inp.rootGiven && !(is_workspace_root inp.tree.manifest)) = true
    · rw [if_pos hroot]
    · rw [if_neg hroot, hML]

/-- Witness for C8: a workspace with zero eligible packages exits 0. -/
theorem cli_exit_codes_witness :
    (main fixtureInpNoGen fixtureFsNone false).exitCode = 0 :=
  (cli_exit_codes fixtureInpNoGen fixtureFsNone false).2.1 (Or.inl rfl) ⟨_, rfl⟩

/-! ### Name-preservation lemmas (no run ever loses a filename except the sweep) -/

theorem keysIncl_refl (d : Option FsDir) : keysIncl d d := fun n c h => ⟨c, h⟩

theorem keysIncl_trans {a b c : Option FsDir} (h1 : keysIncl a b) (h2 : keysIncl b c) :
    keysIncl a c := fun n cc h => by
  obtain ⟨c', h'⟩ := h1 n cc h
  exact h2 n c' h'

theorem fsWrite_keysIncl (d : FsDir) (name content : String) :
    keysIncl (some d) (some (fsWrite d name content)) := by
  intro n c h
  unfold fsWrite
  by_cases ha : d.any (fun e => e.1 = name) = true
  · rw [if_pos ha]
    by_cases hn : n = name
    · subst hn
      refine ⟨content, List.mem_map.2 ⟨(n, c), h, ?_⟩⟩
      exact if_pos rfl
    · exact ⟨c, List.mem_map.2 ⟨(n, c), h, if_neg hn⟩⟩
  · rw [if_neg ha]
    exact ⟨c, List.mem_append_left _ h⟩

theorem generate_workflow_keysIncl (render : String → Package → Except String String)
    (p : Package) (tmpl : String) (wfDir : Option FsDir) (m : Bool) (suffix : String)
    (g : GenOut) (h : generate_workflow render p tmpl wfDir m suffix = Except.ok g) :
    keysIncl wfDir g.wfDir := by
  unfold generate_workflow at h
  cases hr : render tmpl p with
  | error e => rw [hr] at h; cases h
  | ok body =>
    rw [hr] at h
    cases m with
    | true =>
      injection h with h
      rw [← h]
      exact keysIncl_refl _
    | false =>
      injection h with h
      rw [← h]
      intro n c hm
      exact fsWrite_keysIncl (wfDir.getD []) _ _ n c hm

theorem processTemplates_keysIncl (render : String → Package → Except String String)
    (m : Bool) (p : Package) (ts : List (String × String)) (st : LoopSt) :
    keysIncl st.wfDir (processTemplates render m p ts st).st.wfDir := by
  induction ts generalizing st with
  | nil => exact keysIncl_refl _
  | cons e rest ih =>
    obtain ⟨suffix, tmpl⟩ := e
    unfold processTemplates
    cases hg : generate_workflow render p tmpl st.wfDir m suffix with
    | error e2 => exact keysIncl_refl _
    | ok g =>
      have h1 := generate_workflow_keysIncl render p tmpl st.wfDir m suffix g hg
      have h2 := ih
        { st with generated := st.generated ++ [g.path]
                  wfDir := g.wfDir
                  written := st.written ++ g.written
                  compared := st.compared ++ g.compared }
      exact keysIncl_trans h1 h2

theorem processPackage_keysIncl (render : String → Package → Except String String)
    (b : Option String) (bp : String) (m : Bool) (st : LoopSt) (p : Package) :
    keysIncl st.wfDir (processPackage render b bp m st p).st.wfDir := by
  unfold processPackage
  cases hc : st.cache.lookup p.template_type with
  | some tmpls => exact processTemplates_keysIncl render m p tmpls st
  | none =>
    cases hl : load_templates p.template_type st.tmplDir b bp m with
    | error e => exact keysIncl_refl _
    | ok lo =>
      exact processTemplates_keysIncl render m p lo.templates
        { st with cache := st.cache ++ [(p.template_type, lo.templates)], tmplDir := lo.tdir }

theorem processAll_keysIncl (render : String → Package → Except String String)
    (b : Option String) (bp : String) (m : Bool) (ps : List Package) (st : LoopSt) :
    keysIncl st.wfDir (processAll render b bp m ps st).st.wfDir := by
  induction ps generalizing st with
  | nil => exact keysIncl_refl _
  | cons p ps ih =>
    unfold processAll
    cases hp : processPackage render b bp m st p with
    | fail e st' =>
      have h1 := processPackage_keysIncl render b bp m st p
      rw [hp] at h1
      exact h1
    | ok st' =>
      have h1 := processPackage_keysIncl render b bp m st p
      rw [hp] at h1
      exact keysIncl_trans h1 (ih st')

/-! ### Claim C10 -/

/-- C10: when any per-package step fails, `main` returns 1 immediately, the
stale-file sweep never runs (nothing is deleted), and every file present in
the output directory before the run is still present afterwards — files
written for earlier packages remain, nothing is removed. -/
theorem abort_skips_stale_sweep (inp : RunInput) (fs0 : RunFs)
    (hfail : ∃ e st, mainLoop inp fs0 false = LoopOut.fail e st) :
    (main inp fs0 false).exitCode = 1 ∧ (main inp fs0 false).removed = []
    ∧ keysIncl fs0.workflowsDir (main inp fs0 false).fs.workflowsDir := by
  obtain ⟨e, st, hML⟩ := hfail
  have hkeys : keysIncl ((mainFsAfterMkdir fs0 false).workflowsDir)
      ((mainLoop inp fs0 false).st.wfDir) :=
    processAll_keysIncl inp.render inp.bundled inp.bundledPath false (mainPackages inp)
      { cache := []
        generated := []
        wfDir := (mainFsAfterMkdir fs0 false).workflowsDir
        tmplDir := fs0.templatesDir
        written := []
        compared := [] }
  have h0 : keysIncl fs0.workflowsDir ((mainFsAfterMkdir fs0 false).workflowsDir) :=
    fun n c h => ⟨c, h⟩
  have hkeys0 := keysIncl_trans h0 hkeys
  unfold main
  by_cases hroot : (inp.rootGiven && !(is_workspace_root inp.tree.manifest)) = true
  · rw [if_pos hroot]
    exact ⟨rfl, rfl, keysIncl_refl _⟩
  · rw [if_neg hroot, hML]
    rw [hML] at hkeys0
    exact ⟨rfl, rfl, hkeys0⟩

/-- Witness for C10: a run failing on a missing `"lib"` template exits 1 and
deletes nothing. -/
theorem abort_skips_stale_sweep_witness :
    (main fixtureInpLib fixtureFsEmpty false).exitCode = 1
    ∧ (main fixtureInpLib fixtureFsEmpty false).removed = []
    ∧ keysIncl fixtureFsEmpty.workflowsDir
        (main fixtureInpLib fixtureFsEmpty false).fs.workflowsDir :=
  abort_skips_stale_sweep fixtureInpLib fixtureFsEmpty ⟨_, _, rfl⟩

/-! ### Claim C4: discovery characterization -/

theorem contains_append (l1 l2 : List String) (a : String) :
    (l1 ++ l2).contains a = (l1.contains a || l2.contains a) := by
  induction l1 with
  | nil => rfl
  | cons b l ih =>
    show (a == b || (l ++ l2).contains a) = ((a == b || l.contains a) || l2.contains a)
    rw [ih, Bool.or_assoc]

theorem excludedRel_split (absParts rel : List String)
    (h : absParts.contains "__pycache__" = false) :
    excludedRel absParts rel =
      (rel.any (fun s => s.startsWith ".") || rel.contains "__pycache__") := by
  unfold excludedRel
  rw [contains_append, h, Bool.false_or]

theorem excludedRel_extend (absParts rel ext : List String)
    (hex : excludedRel absParts rel = true) :
    excludedRel absParts (rel ++ ext) = true := by
  unfold excludedRel at hex ⊢
  rcases (Bool.or_eq_true _ _) ▸ hex with hx | hx
  · rw [List.any_append, hx, Bool.true_or, Bool.true_or]
  · rw [← List.append_assoc, contains_append, hx, Bool.true_or, Bool.or_true]

theorem dirsForest_ancestors :
    ∀ (cs : List DirTree) (rel : List String),
      ∀ pr ∈ dirsForest cs rel, ∃ ext, pr.1 = rel ++ ext := by
  refine dirsForest.induct
    (fun t rel => ∀ pr ∈ dirsTree t rel, ∃ ext, pr.1 = rel ++ ext)
    (fun cs rel => ∀ pr ∈ dirsForest cs rel, ∃ ext, pr.1 = rel ++ ext)
    ?_ ?_ ?_
  · intro n mf children relParts ih pr hpr
    rw [show dirsTree (DirTree.node n mf children) relParts =
      (relParts, DirTree.node n mf children) :: dirsForest children relParts from rfl] at hpr
    rcases List.mem_cons.1 hpr with hh | hh
    · exact ⟨[], by rw [hh]; exact (List.append_nil relParts).symm⟩
    · exact ih pr hh
  · intro rel pr hpr
    rw [show dirsForest [] rel = [] from rfl] at hpr
    cases hpr
  · intro c cs relParts ih1 ih2 pr hpr
    rw [show dirsForest (c :: cs) relParts =
      dirsTree c (relParts ++ [c.name]) ++ dirsForest cs relParts from rfl] at hpr
    rcases List.mem_append.1 hpr with hh | hh
    · obtain ⟨ext, hext⟩ := ih1 pr hh
      exact ⟨[c.name] ++ ext, by rw [hext, List.append_assoc]⟩
    · exact ih2 pr hh

theorem pick_none_of_excluded (absParts : List String) (wcfg : ToolConfig)
    (pr : List String × DirTree) (h : absParts.contains "__pycache__" = false)
    (hex : excludedRel absParts pr.1 = true) :
    discoverySpecPick wcfg pr = none := by
  obtain ⟨rel, t⟩ := pr
  rw [excludedRel_split absParts rel h] at hex
  obtain ⟨n, mf, cs⟩ := t
  cases mf with
  | none => rfl
  | some em =>
    cases em with
    | error u => rfl
    | ok pp =>
      have hred : discoverySpecPick wcfg (rel, DirTree.node n (some (Except.ok pp)) cs) =
          (if (rel.any (fun s => s.startsWith ".")) = false
              ∧ rel.contains "__pycache__" = false
              ∧ pp.tool.generate = some true then
            some (resolvePackage pp wcfg n (pathFor rel))
          else none) := rfl
      rw [hred]
      apply if_neg
      rintro ⟨h1, h2, -⟩
      rcases (Bool.or_eq_true _ _) ▸ hex with hx | hx
      · rw [h1] at hx; exact absurd hx (by decide)
      · rw [h2] at hx; exact absurd hx (by decide)

theorem discover_nonroot_eq (wcfg : ToolConfig) (n : String) (mf : ManifestFile)
    (cs : List DirTree) (rel : List String) (hrel : rel.isEmpty = false)
    (hhid : rel.any (fun s => s.startsWith ".") = false)
    (hpyc : rel.contains "__pycache__" = false) :
    _discover_in_directory mf n (relPathStr rel) wcfg false =
      (discoverySpecPick wcfg (rel, DirTree.node n mf cs)).toList := by
  cases mf with
  | none => rfl
  | some em =>
    cases em with
    | error u => rfl
    | ok pp =>
      have hL : _discover_in_directory (some (Except.ok pp)) n (relPathStr rel) wcfg false =
          (if pp.tool.generate.getD false = true then
            [resolvePackage pp wcfg n (relPathStr rel)] else []) := rfl
      have hR : discoverySpecPick wcfg (rel, DirTree.node n (some (Except.ok pp)) cs) =
          (if (rel.any (fun s => s.startsWith ".")) = false
              ∧ rel.contains "__pycache__" = false
              ∧ pp.tool.generate = some true then
            some (resolvePackage pp wcfg n (pathFor rel))
          else none) := rfl
      rw [hL, hR]
      have hp : pathFor rel = relPathStr rel := by
        unfold pathFor
        rw [hrel]
        rfl
      cases hg : pp.tool.generate with
      | none =>
        rw [if_neg (fun hc => Bool.noConfusion hc)]
        rw [if_neg (fun hc => Option.noConfusion hc.2.2)]
        rfl
      | some b =>
        cases b with
        | false =>
          rw [if_neg (fun hc => Bool.noConfusion hc)]
          rw [if_neg (fun hc => Bool.noConfusion (Option.some.inj hc.2.2))]
          rfl
        | true =>
          rw [if_pos (show ((some true : Option Bool).getD false) = true from rfl)]
          rw [if_pos ⟨hhid, hpyc, rfl⟩]
          rw [hp]
          rfl

theorem discover_root_eq (wcfg : ToolConfig) (n : String) (mf : ManifestFile)
    (cs : List DirTree) :
    _discover_in_directory mf n "." wcfg true =
      (discoverySpecPick wcfg ([], DirTree.node n mf cs)).toList := by
  cases mf with
  | none => rfl
  | some em =>
    cases em with
    | error u => rfl
    | ok pp =>
      have hL : _discover_in_directory (some (Except.ok pp)) n "." wcfg true =
          (if pp.tool.generate.getD false = true then
            [resolvePackage pp wcfg n "."] else []) := rfl
      have hR : discoverySpecPick wcfg ([], DirTree.node n (some (Except.ok pp)) cs) =
          (if (([] : List String).any (fun s => s.startsWith ".")) = false
              ∧ ([] : List String).contains "__pycache__" = false
              ∧ pp.tool.generate = some true then
            some (resolvePackage pp wcfg n (pathFor []))
          else none) := rfl
      rw [hL, hR]
      cases hg : pp.tool.generate with
      | none =>
        rw [if_neg (fun hc => Bool.noConfusion hc)]
        rw [if_neg (fun hc => Option.noConfusion hc.2.2)]
        rfl
      | some b =>
        cases b with
        | false =>
          rw [if_neg (fun hc => Bool.noConfusion hc)]
          rw [if_neg (fun hc => Bool.noConfusion (Option.some.inj hc.2.2))]
          rfl
        | true =>
          rw [if_pos (show ((some true : Option Bool).getD false) = true from rfl)]
          rw [if_pos ⟨rfl, rfl, rfl⟩]
          rfl

theorem walkForest_spec (absParts : List String) (wcfg : ToolConfig)
    (h : absParts.contains "__pycache__" = false) :
    ∀ (cs : List DirTree) (rel : List String),
      walkForest absParts wcfg cs rel =
        (dirsForest cs rel).filterMap (discoverySpecPick wcfg) := by
  refine walkForest.induct absParts wcfg
    (fun t rel => rel.isEmpty = false → walkTree absParts wcfg t rel =
      (dirsTree t rel).filterMap (discoverySpecPick wcfg))
    (fun cs rel => walkForest absParts wcfg cs rel =
      (dirsForest cs rel).filterMap (discoverySpecPick wcfg))
    ?_ ?_ ?_ ?_
  · intro n mf children relParts hex hrel
    have hwt : walkTree absParts wcfg (DirTree.node n mf children) relParts = [] := by
      unfold walkTree
      rw [if_pos hex]
    rw [hwt]
    symm
    rw [List.filterMap_eq_nil_iff]
    intro pr hpr
    rw [show dirsTree (DirTree.node n mf children) relParts =
      (relParts, DirTree.node n mf children) :: dirsForest children relParts from rfl] at hpr
    rcases List.mem_cons.1 hpr with hh | hh
    · rw [hh]
      exact pick_none_of_excluded absParts wcfg _ h hex
    · obtain ⟨ext, hext⟩ := dirsForest_ancestors children relParts pr hh
      refine pick_none_of_excluded absParts wcfg pr h ?_
      rw [hext]
      exact excludedRel_extend absParts relParts ext hex
  · intro n mf children relParts hnex ih hrel
    have hwt : walkTree absParts wcfg (DirTree.node n mf children) relParts =
        (if relParts.isEmpty then []
         else _discover_in_directory mf n (relPathStr relParts) wcfg false)
          ++ walkForest absParts wcfg children relParts := by
      unfold walkTree
      rw [if_neg hnex]
    rw [hwt, if_neg (by rw [hrel]; exact Bool.false_ne_true)]
    have hex' : excludedRel absParts relParts = false := Bool.eq_false_iff.2 hnex
    rw [excludedRel_split absParts relParts h] at hex'
    have hhid : relParts.any (fun s => s.startsWith ".") = false := by
      cases hany : relParts.any (fun s => s.startsWith ".") with
      | false => rfl
      | true => rw [hany] at hex'; simp at hex'
    have hpyc : relParts.contains "__pycache__" = false := by
      cases hcon : relParts.contains "__pycache__" with
      | false => rfl
      | true => rw [hcon] at hex'; simp at hex'
    rw [discover_nonroot_eq wcfg n mf children relParts hrel hhid hpyc]
    rw [ih]
    rw [show dirsTree (DirTree.node n mf children) relParts =
      (relParts, DirTree.node n mf children) :: dirsForest children relParts from rfl]
    rw [List.filterMap_cons]
    cases hpk : discoverySpecPick wcfg (relParts, DirTree.node n mf children) with
    | none => rfl
    | some pkg => rfl
  · intro rel
    rfl
  · intro c cs relParts ih1 ih2
    have hwf : walkForest absParts wcfg (c :: cs) relParts =
        walkTree absParts wcfg c (relParts ++ [c.name])
          ++ walkForest absParts wcfg cs relParts := rfl
    rw [hwf, ih1 (by simp), ih2]
    rw [show dirsForest (c :: cs) relParts =
      dirsTree c (relParts ++ [c.name]) ++ dirsForest cs relParts from rfl]
    rw [List.filterMap_append]

/-- C4: a run's discovery returns, in traversal order, exactly one package
per directory whose relative path has no hidden or `__pycache__` component
and whose manifest parses with `generate` explicitly `true` (the whole
subtree of an excluded directory contributes nothing) — so a `PackageSpec`
exists for a directory if and only if the directory is outside the pruned
subtrees and its parseable manifest opts in. The workspace's own absolute
path is assumed not to contain a `__pycache__` component. -/
theorem discovery_characterization (absParts : List String) (t : DirTree)
    (wcfg : ToolConfig) (h : absParts.contains "__pycache__" = false) :
    discover_packages absParts t wcfg =
      (dirsTree t []).filterMap (discoverySpecPick wcfg) := by
  obtain ⟨n, mf, cs⟩ := t
  have hex0 : excludedRel absParts ([] : List String) = false := by
    unfold excludedRel
    rw [contains_append, h]
    rfl
  have hwt : walkTree absParts wcfg (DirTree.node n mf cs) [] =
      walkForest absParts wcfg cs [] := by
    unfold walkTree
    rw [if_neg (by rw [hex0]; exact Bool.false_ne_true)]
    rfl
  show _discover_in_directory mf n "." wcfg true
      ++ walkTree absParts wcfg (DirTree.node n mf cs) [] = _
  rw [hwt, walkForest_spec absParts wcfg h cs []]
  rw [discover_root_eq wcfg n mf cs]
  rw [show dirsTree (DirTree.node n mf cs) [] =
    ([], DirTree.node n mf cs) :: dirsForest cs [] from rfl]
  rw [List.filterMap_cons]
  cases hpk : discoverySpecPick wcfg ([], DirTree.node n mf cs) with
  | none => rfl
  | some pkg => rfl

/-- Witness for C4 on a tree with an eligible nested package, a hidden
subtree, a `__pycache__` directory and a malformed manifest. -/
theorem discovery_characterization_witness :
    discover_packages ["home"] fixtureTreeDisc {} =
      (dirsTree fixtureTreeDisc []).filterMap (discoverySpecPick {}) :=
  discovery_characterization ["home"] fixtureTreeDisc {} (by decide)

/-! ### Split/join lemmas for template filename parsing -/

theorem splitDots_ne_nil (l : List Char) : splitDots l ≠ [] := by
  cases l with
  | nil => exact fun h => List.noConfusion h
  | cons c rest =>
    unfold splitDots
    by_cases hc : c = '.'
    · rw [if_pos hc]
      exact fun h => List.noConfusion h
    · rw [if_neg hc]
      cases hs : splitDots rest with
      | nil => exact fun h => List.noConfusion h
      | cons hh tt => exact fun h => List.noConfusion h

theorem joinDots_splitDots (l : List Char) : joinDots (splitDots l) = l := by
  induction l with
  | nil => rfl
  | cons c rest ih =>
    unfold splitDots
    by_cases hc : c = '.'
    · rw [if_pos hc]
      cases hs : splitDots rest with
      | nil => exact absurd hs (splitDots_ne_nil rest)
      | cons hh tt =>
        rw [show joinDots ([] :: hh :: tt) = '.' :: joinDots (hh :: tt) from rfl]
        rw [← hs, ih, hc]
    · rw [if_neg hc]
      cases hs : splitDots rest with
      | nil => exact absurd hs (splitDots_ne_nil rest)
      | cons hh tt =>
        cases tt with
        | nil =>
          rw [hs] at ih
          have hrest : hh = rest := ih
          rw [show joinDots [c :: hh] = c :: hh from rfl, hrest]
        | cons t1 ts =>
          rw [hs] at ih
          rw [show joinDots ((c :: hh) :: t1 :: ts) =
            (c :: hh) ++ '.' :: joinDots (t1 :: ts) from rfl]
          rw [show joinDots (hh :: t1 :: ts) = hh ++ '.' :: joinDots (t1 :: ts) from rfl] at ih
          rw [show (c :: hh) ++ '.' :: joinDots (t1 :: ts) =
            c :: (hh ++ '.' :: joinDots (t1 :: ts)) from rfl]
          rw [ih]

theorem splitDots_no_dot (l : List Char) :
    ∀ p ∈ splitDots l, ('.' : Char) ∉ p := by
  induction l with
  | nil =>
    intro p hp
    rw [show splitDots [] = [[]] from rfl] at hp
    rcases List.mem_cons.1 hp with h | h
    · rw [h]; exact List.not_mem_nil _
    · cases h
  | cons c rest ih =>
    intro p hp
    unfold splitDots at hp
    by_cases hc : c = '.'
    · rw [if_pos hc] at hp
      rcases List.mem_cons.1 hp with h | h
      · rw [h]; exact List.not_mem_nil _
      · exact ih p h
    · rw [if_neg hc] at hp
      cases hs : splitDots rest with
      | nil => exact absurd hs (splitDots_ne_nil rest)
      | cons hh tt =>
        rw [hs] at hp
        rcases List.mem_cons.1 hp with h | h
        · rw [h]
          intro hmem
          rcases List.mem_cons.1 hmem with h2 | h2
          · exact hc h2.symm
          · exact ih hh (hs ▸ List.mem_cons_self hh tt) h2
        · exact ih p (hs ▸ List.mem_cons_of_mem hh h)

theorem splitDots_append (a h : List Char) (t : List (List Char)) (r : List Char)
    (hs : splitDots r = h :: t) :
    ('.' : Char) ∉ a → splitDots (a ++ r) = (a ++ h) :: t := by
  induction a with
  | nil =>
    intro _
    exact hs
  | cons c a' ih =>
    intro hdot
    have hc : c ≠ '.' := fun hcc => hdot (hcc ▸ List.mem_cons_self c a')
    show splitDots (c :: (a' ++ r)) = ((c :: a') ++ h) :: t
    unfold splitDots
    rw [if_neg hc]
    rw [ih (fun hm => hdot (List.mem_cons_of_mem c hm))]
    rfl

theorem extraTemplateSuffix_primary (ty : String) (hty : ('.' : Char) ∉ ty.data) :
    extraTemplateSuffix ty (ty ++ ".template.yml") = none := by
  unfold extraTemplateSuffix
  rw [String.data_append]
  rw [splitDots_append ty.data [] ["template".data, "yml".data]
    (".template.yml".data) rfl hty]

theorem extraTemplateSuffix_of_shape (ty s : String)
    (hty : ('.' : Char) ∉ ty.data) (hs : ('.' : Char) ∉ s.data) :
    extraTemplateSuffix ty (ty ++ "." ++ s ++ ".template.yml") = some s := by
  unfold extraTemplateSuffix
  have hd : (ty ++ "." ++ s ++ ".template.yml").data =
      ty.data ++ (['.'] ++ (s.data ++ ".template.yml".data)) := by
    rw [String.data_append, String.data_append, String.data_append]
    rw [List.append_assoc, List.append_assoc]
  rw [hd]
  have h1 : splitDots (s.data ++ ".template.yml".data) =
      (s.data ++ []) :: ["template".data, "yml".data] :=
    splitDots_append s.data [] ["template".data, "yml".data]
      (".template.yml".data) rfl hs
  have h2 : splitDots (['.'] ++ (s.data ++ ".template.yml".data)) =
      [] :: ((s.data ++ []) :: ["template".data, "yml".data]) := by
    show splitDots ('.' :: (s.data ++ ".template.yml".data)) = _
    unfold splitDots
    rw [if_pos rfl, h1]
  rw [splitDots_append ty.data [] ((s.data ++ []) :: ["template".data, "yml".data])
    (['.'] ++ (s.data ++ ".template.yml".data)) h2 hty]
  rw [List.append_nil, List.append_nil]
  exact if_pos ⟨rfl, rfl, rfl⟩

theorem shape_data (l1 l2 : List Char) :
    l1 ++ '.' :: (l2 ++ '.' :: ("template".data ++ '.' :: "yml".data)) =
    ((l1 ++ ".".data) ++ l2) ++ ".template.yml".data := by
  rw [List.append_assoc, List.append_assoc]
  rfl

theorem extraTemplateSuffix_shape (ty nm s : String)
    (he : extraTemplateSuffix ty nm = some s) :
    nm = ty ++ "." ++ s ++ ".template.yml" ∧ ('.' : Char) ∉ s.data := by
  unfold extraTemplateSuffix at he
  cases hsp : splitDots nm.data with
  | nil => rw [hsp] at he; cases he
  | cons a r1 =>
    cases r1 with
    | nil => rw [hsp] at he; cases he
    | cons sl r2 =>
      cases r2 with
      | nil => rw [hsp] at he; cases he
      | cons bb r3 =>
        cases r3 with
        | nil => rw [hsp] at he; cases he
        | cons cc r4 =>
          cases r4 with
          | cons dd r5 => rw [hsp] at he; cases he
          | nil =>
            rw [hsp] at he
            have he' : (if String.mk a = ty ∧ String.mk bb = "template"
                ∧ String.mk cc = "yml" then some (String.mk sl) else none) = some s := he
            by_cases hcond : (String.mk a = ty ∧ String.mk bb = "template"
                ∧ String.mk cc = "yml")
            · rw [if_pos hcond] at he'
              injection he' with he
              obtain ⟨ha, hb, hc⟩ := hcond
              have hsl : sl = s.data := congrArg String.data he
              have hsdot : ('.' : Char) ∉ s.data := by
                rw [← hsl]
                exact splitDots_no_dot nm.data sl
                  (hsp ▸ List.mem_cons_of_mem a (List.mem_cons_self sl (bb :: cc :: [])))
              refine ⟨?_, hsdot⟩
              have haa : a = ty.data := congrArg String.data ha
              have hbb : bb = "template".data := congrArg String.data hb
              have hcc : cc = "yml".data := congrArg String.data hc
              have hjd : nm.data = a ++ '.' :: (sl ++ '.' :: (bb ++ '.' :: cc)) := by
                have hj := joinDots_splitDots nm.data
                rw [hsp] at hj
                rw [← hj]
                rfl
              apply String.ext
              rw [hjd, haa, hbb, hcc, hsl]
              rw [String.data_append, String.data_append, String.data_append]
              exact shape_data ty.data s.data
            · rw [if_neg hcond] at he'
              cases he'

theorem extraTemplateSuffix_none_of_not_shape (ty nm : String)
    (hshape : ∀ s : String, ('.' : Char) ∉ s.data →
      nm ≠ ty ++ "." ++ s ++ ".template.yml") :
    extraTemplateSuffix ty nm = none := by
  cases he : extraTemplateSuffix ty nm with
  | none => rfl
  | some s =>
    obtain ⟨hshp, hsd⟩ := extraTemplateSuffix_shape ty nm s he
    exact absurd hshp (hshape s hsd)

/-! ### Equation lemmas for the generation loop -/

theorem generate_workflow_write (render : String → Package → Except String String)
    (p : Package) (tmpl : String) (wfDir : Option FsDir) (suffix body : String)
    (hr : render tmpl p = Except.ok body) :
    generate_workflow render p tmpl wfDir false suffix =
      Except.ok ⟨workflow_filename p suffix,
        some (fsWrite (wfDir.getD []) (workflow_filename p suffix) (autogen_comment ++ body)),
        [(workflow_filename p suffix, autogen_comment ++ body)], []⟩ := by
  unfold generate_workflow
  rw [hr]
  rfl

theorem generate_workflow_diffm (render : String → Package → Except String String)
    (p : Package) (tmpl : String) (wfDir : Option FsDir) (suffix body : String)
    (hr : render tmpl p = Except.ok body) :
    generate_workflow render p tmpl wfDir true suffix =
      Except.ok ⟨workflow_filename p suffix, wfDir, [],
        [(workflow_filename p suffix, autogen_comment ++ body)]⟩ := by
  unfold generate_workflow
  rw [hr]
  rfl

theorem generate_workflow_err (render : String → Package → Except String String)
    (p : Package) (tmpl : String) (wfDir : Option FsDir) (m : Bool) (suffix e : String)
    (hr : render tmpl p = Except.error e) :
    generate_workflow render p tmpl wfDir m suffix = Except.error e := by
  unfold generate_workflow
  rw [hr]

theorem processTemplates_step (render : String → Package → Except String String)
    (m : Bool) (p : Package) (suffix tmpl : String) (rest : List (String × String))
    (st : LoopSt) (pth : String) (wfd : Option FsDir)
    (wr cp : List (String × String))
    (hg : generate_workflow render p tmpl st.wfDir m suffix =
      Except.ok ⟨pth, wfd, wr, cp⟩) :
    processTemplates render m p ((suffix, tmpl) :: rest) st =
      processTemplates render m p rest
        { st with generated := st.generated ++ [pth]
                  wfDir := wfd
                  written := st.written ++ wr
                  compared := st.compared ++ cp } := by
  conv_lhs => unfold processTemplates
  rw [hg]

theorem processTemplates_step_err (render : String → Package → Except String String)
    (m : Bool) (p : Package) (suffix tmpl : String) (rest : List (String × String))
    (st : LoopSt) (e : String)
    (hg : generate_workflow render p tmpl st.wfDir m suffix = Except.error e) :
    processTemplates render m p ((suffix, tmpl) :: rest) st = LoopOut.fail e st := by
  conv_lhs => unfold processTemplates
  rw [hg]

theorem processPackage_cached (render : String → Package → Except String String)
    (b : Option String) (bp : String) (m : Bool) (st : LoopSt) (p : Package)
    (tmpls : List (String × String))
    (hcache : st.cache.lookup p.template_type = some tmpls) :
    processPackage render b bp m st p = processTemplates render m p tmpls st := by
  conv_lhs => unfold processPackage
  rw [hcache]

theorem processPackage_load (render : String → Package → Except String String)
    (b : Option String) (bp : String) (m : Bool) (st : LoopSt) (p : Package)
    (tmpls : List (String × String)) (td : Option FsDir)
    (hcache : st.cache.lookup p.template_type = none)
    (hl : load_templates p.template_type st.tmplDir b bp m = Except.ok ⟨tmpls, td⟩) :
    processPackage render b bp m st p =
      processTemplates render m p tmpls
        { st with cache := st.cache ++ [(p.template_type, tmpls)]
                  tmplDir := td } := by
  conv_lhs => unfold processPackage
  rw [hcache, hl]

theorem processPackage_load_err (render : String → Package → Except String String)
    (b : Option String) (bp : String) (m : Bool) (st : LoopSt) (p : Package) (e : String)
    (hcache : st.cache.lookup p.template_type = none)
    (hl : load_templates p.template_type st.tmplDir b bp m = Except.error e) :
    processPackage render b bp m st p = LoopOut.fail e st := by
  conv_lhs => unfold processPackage
  rw [hcache, hl]

theorem processAll_cons_ok (render : String → Package → Except String String)
    (b : Option String) (bp : String) (m : Bool) (p : Package) (ps : List Package)
    (st st' : LoopSt) (hp : processPackage render b bp m st p = LoopOut.ok st') :
    processAll render b bp m (p :: ps) st = processAll render b bp m ps st' := by
  conv_lhs => unfold processAll
  rw [hp]

theorem processAll_cons_fail (render : String → Package → Except String String)
    (b : Option String) (bp : String) (m : Bool) (p : Package) (ps : List Package)
    (st st' : LoopSt) (e : String)
    (hp : processPackage render b bp m st p = LoopOut.fail e st') :
    processAll render b bp m (p :: ps) st = LoopOut.fail e st' := by
  conv_lhs => unfold processAll
  rw [hp]

theorem lookup_cons_self {β : Type} (k : String) (v : β) (rest : List (String × β)) :
    List.lookup k ((k, v) :: rest) = some v := by
  simp [List.lookup]

theorem foundTemplates_some (ty : String) (L : FsDir) :
    foundTemplates ty (some L) =
      (match L.lookup (ty ++ ".template.yml") with
       | some c => [("", c)]
       | none => []) ++
      L.filterMap (fun e => (extraTemplateSuffix ty e.1).map (fun s => (s, e.2))) := rfl

theorem processTemplates_two (render : String → Package → Except String String)
    (p : Package) (c1 c2 b1 b2 : String) (st : LoopSt)
    (hr1 : render c1 p = Except.ok b1) (hr2 : render c2 p = Except.ok b2) :
    processTemplates render false p [("", c1), ("extra", c2)] st =
      LoopOut.ok
        { st with
          generated := (st.generated ++ [workflow_filename p ""])
            ++ [workflow_filename p "extra"]
          wfDir := some (fsWrite
            (fsWrite (st.wfDir.getD []) (workflow_filename p "") (autogen_comment ++ b1))
            (workflow_filename p "extra") (autogen_comment ++ b2))
          written := (st.written ++ [(workflow_filename p "", autogen_comment ++ b1)])
            ++ [(workflow_filename p "extra", autogen_comment ++ b2)]
          compared := (st.compared ++ []) ++ [] } := by
  rw [processTemplates_step render false p "" c1 [("extra", c2)] st (workflow_filename p "")
    (some (fsWrite (st.wfDir.getD []) (workflow_filename p "") (autogen_comment ++ b1)))
    [(workflow_filename p "", autogen_comment ++ b1)] []
    (generate_workflow_write render p c1 st.wfDir "" b1 hr1)]
  rw [processTemplates_step render false p "extra" c2 [] _ (workflow_filename p "extra")
    (some (fsWrite
      (fsWrite (st.wfDir.getD []) (workflow_filename p "") (autogen_comment ++ b1))
      (workflow_filename p "extra") (autogen_comment ++ b2)))
    [(workflow_filename p "extra", autogen_comment ++ b2)] []
    (generate_workflow_write render p c2
      (some (fsWrite (st.wfDir.getD []) (workflow_filename p "") (autogen_comment ++ b1)))
      "extra" b2 hr2)]
  rfl

/-! ### Claim C6 -/

/-- C6: for a template type with one primary template file and one extra
template file suffixed `"extra"`, a qualifying package yields exactly two
output files, `{type}-{name}.yml` and `{type}-extra-{name}.yml`; any other
file of the template directory that does not have exactly the shape
`{type}.template.yml` or `{type}.{suffix}.template.yml` with a dot-free
suffix (for example a name with an extra dot segment) is ignored and
produces no output file. -/
theorem multi_template_two_outputs
    (ty : String) (hdot : ('.' : Char) ∉ ty.data)
    (c1 c2 : String) (junk : FsDir)
    (hjunkP : ∀ e ∈ junk, e.1 ≠ ty ++ ".template.yml")
    (hjunkE : ∀ e ∈ junk, ∀ s : String, ('.' : Char) ∉ s.data →
      e.1 ≠ ty ++ "." ++ s ++ ".template.yml")
    (p : Package) (hty : p.template_type = ty)
    (render : String → Package → Except String String) (b1 b2 : String)
    (hr1 : render c1 p = Except.ok b1) (hr2 : render c2 p = Except.ok b2)
    (st : LoopSt) (hcache : st.cache.lookup p.template_type = none)
    (htd : st.tmplDir = some ((ty ++ ".template.yml", c1)
      :: (ty ++ "." ++ "extra" ++ ".template.yml", c2) :: junk))
    (b : Option String) (bp : String) :
    ∃ st', processPackage render b bp false st p = LoopOut.ok st'
      ∧ st'.generated = st.generated ++
          [ty ++ "-" ++ p.name ++ ".yml",
           ty ++ "-" ++ "extra" ++ "-" ++ p.name ++ ".yml"]
      ∧ st'.written = st.written ++
          [(ty ++ "-" ++ p.name ++ ".yml", autogen_comment ++ b1),
           (ty ++ "-" ++ "extra" ++ "-" ++ p.name ++ ".yml", autogen_comment ++ b2)] := by
  subst hty
  have hjunkFM : junk.filterMap
      (fun e => (extraTemplateSuffix p.template_type e.1).map (fun s => (s, e.2))) = [] := by
    refine List.filterMap_eq_nil_iff.2 (fun e he => ?_)
    rw [extraTemplateSuffix_none_of_not_shape p.template_type e.1 (hjunkE e he)]
    rfl
  have hfound : foundTemplates p.template_type st.tmplDir = [("", c1), ("extra", c2)] := by
    rw [htd, foundTemplates_some]
    rw [lookup_cons_self]
    simp only [List.filterMap_cons]
    rw [extraTemplateSuffix_primary p.template_type hdot]
    rw [extraTemplateSuffix_of_shape p.template_type "extra" hdot (by decide)]
    rw [hjunkFM]
    rfl
  have hload : load_templates p.template_type st.tmplDir b bp false =
      Except.ok ⟨[("", c1), ("extra", c2)], st.tmplDir⟩ := by
    unfold load_templates
    rw [hfound]
    rw [if_neg (fun hc => Bool.noConfusion hc.1)]
    rw [if_neg (fun hc => Bool.noConfusion hc)]
  rw [processPackage_load render b bp false st p [("", c1), ("extra", c2)]
    st.tmplDir hcache hload]
  rw [processTemplates_two render p c1 c2 b1 b2
    { st with cache := st.cache ++ [(p.template_type, [("", c1), ("extra", c2)])]
              tmplDir := st.tmplDir } hr1 hr2]
  refine ⟨_, rfl, ?_, ?_⟩
  · show ((st.generated ++ [workflow_filename p ""]) ++ [workflow_filename p "extra"]) =
      st.generated ++ [p.template_type ++ "-" ++ p.name ++ ".yml",
        p.template_type ++ "-" ++ "extra" ++ "-" ++ p.name ++ ".yml"]
    rw [List.append_assoc]
    rfl
  · show ((st.written ++ [(workflow_filename p "", autogen_comment ++ b1)])
        ++ [(workflow_filename p "extra", autogen_comment ++ b2)]) =
      st.written ++
        [(p.template_type ++ "-" ++ p.name ++ ".yml", autogen_comment ++ b1),
         (p.template_type ++ "-" ++ "extra" ++ "-" ++ p.name ++ ".yml", autogen_comment ++ b2)]
    rw [List.append_assoc]
    rfl

/-! ### Filesystem and lookup lemmas for the diff/write simulation -/

theorem applyWrites_append (d : FsDir) (ws : List (String × String)) (x : String × String) :
    applyWrites d (ws ++ [x]) = fsWrite (applyWrites d ws) x.1 x.2 := by
  induction ws generalizing d with
  | nil => rfl
  | cons w ws ih => exact ih (fsWrite d w.1 w.2)

theorem lookup_append {β : Type} (l1 l2 : List (String × β)) (k : String) :
    (l1 ++ l2).lookup k =
      match l1.lookup k with
      | some v => some v
      | none => l2.lookup k := by
  induction l1 with
  | nil => rfl
  | cons e l ih =>
    obtain ⟨k', v⟩ := e
    rw [List.cons_append]
    cases hk : k == k' with
    | true => simp [List.lookup, hk]
    | false => simp [List.lookup, hk, ih]

theorem lookup_isSome_append {β : Type} (l1 l2 : List (String × β)) (k : String)
    (h : (l1.lookup k).isSome = true) : ((l1 ++ l2).lookup k).isSome = true := by
  rw [lookup_append]
  cases hl : l1.lookup k with
  | none => rw [hl] at h; cases h
  | some v => rfl

theorem lookup_append_self_of_none {β : Type} (l1 : List (String × β)) (k : String) (v : β)
    (h : l1.lookup k = none) : (l1 ++ [(k, v)]).lookup k = some v := by
  rw [lookup_append, h]
  simp [List.lookup]

theorem any_eq_false_of_lookup_none {β : Type} (L : List (String × β)) (k : String)
    (h : L.lookup k = none) : (L.any (fun e => e.1 = k)) = false := by
  induction L with
  | nil => rfl
  | cons e rest ih =>
    obtain ⟨k', v⟩ := e
    cases hk : k == k' with
    | true =>
      exfalso
      rw [show List.lookup k ((k', v) :: rest) = some v from by simp [List.lookup, hk]] at h
      cases h
    | false =>
      have hrest : rest.lookup k = none := by
        rw [show List.lookup k ((k', v) :: rest) = rest.lookup k from by
          simp [List.lookup, hk]] at h
        exact h
      rw [List.any_cons, ih hrest]
      have hne : ¬((k', v).1 = k) := by
        intro he
        have he' : k' = k := he
        rw [he'] at hk
        rw [beq_self_eq_true] at hk
        cases hk
      simp [hne]

theorem fsWrite_of_lookup_none (L : FsDir) (n c : String) (h : L.lookup n = none) :
    fsWrite L n c = L ++ [(n, c)] := by
  unfold fsWrite
  rw [if_neg (by rw [any_eq_false_of_lookup_none L n h]; exact Bool.false_ne_true)]

theorem extra_pkgfile_none (ty : String) :
    extraTemplateSuffix ty "package.template.yml" = none := rfl

theorem str_app_right_cancel (a b c : String) (h : a ++ c = b ++ c) : a = b := by
  have hd := congrArg String.data h
  rw [String.data_append, String.data_append] at hd
  have hab := List.append_cancel_right hd
  cases a
  cases b
  exact congrArg String.mk hab

theorem foundTemplates_delta (ty : String) (dt : Option FsDir) (bc : String)
    (hty : ty ≠ "package") :
    foundTemplates ty (some ((dt.getD []) ++ [("package.template.yml", bc)])) =
      foundTemplates ty dt := by
  have hkey : (ty ++ ".template.yml") ≠ "package.template.yml" := by
    intro h
    apply hty
    apply str_app_right_cancel ty "package" ".template.yml"
    rw [h]
    rfl
  have hlk1 : List.lookup (ty ++ ".template.yml") [("package.template.yml", bc)] = none := by
    simp [List.lookup, beq_eq_false_iff_ne.2 hkey]
  have hfm1 : List.filterMap
      (fun e => (extraTemplateSuffix ty e.1).map (fun s => (s, e.2)))
      [("package.template.yml", bc)] = [] := by
    simp [extra_pkgfile_none]
  cases dt with
  | none =>
    rw [foundTemplates_some]
    simp only [Option.getD_none, List.nil_append]
    rw [hlk1, hfm1]
    rfl
  | some L =>
    rw [foundTemplates_some]
    simp only [Option.getD_some]
    rw [foundTemplates_some]
    rw [lookup_append, hlk1, List.filterMap_append, hfm1, List.append_nil]
    cases hl : L.lookup (ty ++ ".template.yml") with
    | none => rfl
    | some v => rfl

/-! ### The sweep ignores files written under generated names -/

theorem filter_key_map (p : String → Bool) (rep : String × String → String × String)
    (hfst : ∀ e, (rep e).1 = e.1) (d : FsDir) :
    (d.map rep).filter (fun e => p e.1) = (d.filter (fun e => p e.1)).map rep := by
  induction d with
  | nil => rfl
  | cons e l ih =>
    rw [List.map_cons]
    by_cases hy : p e.1 = true
    · rw [@List.filter_cons_of_pos _ (fun e => p e.1) (rep e) (List.map rep l)
        (by show p (rep e).1 = true; rw [hfst e]; exact hy)]
      rw [@List.filter_cons_of_pos _ (fun e => p e.1) e l hy]
      rw [List.map_cons, ih]
    · rw [@List.filter_cons_of_neg _ (fun e => p e.1) (rep e) (List.map rep l)
        (by show ¬ p (rep e).1 = true
            rw [hfst e]
            exact hy)]
      rw [@List.filter_cons_of_neg _ (fun e => p e.1) e l hy]
      exact ih

theorem filter_stale_map_fst (gen : List String) (rep : String × String → String × String)
    (hfst : ∀ e, (rep e).1 = e.1)
    (hstale : ∀ e, isStale gen (rep e) = isStale gen e) (cands : FsDir) :
    ((cands.map rep).filter (isStale gen)).map Prod.fst =
      (cands.filter (isStale gen)).map Prod.fst := by
  induction cands with
  | nil => rfl
  | cons e l ih =>
    rw [List.map_cons]
    by_cases hs : isStale gen e = true
    · rw [@List.filter_cons_of_pos _ (isStale gen) (rep e) (List.map rep l)
        (by rw [hstale e]; exact hs)]
      rw [@List.filter_cons_of_pos _ (isStale gen) e l hs]
      rw [List.map_cons, List.map_cons, ih, hfst e]
    · rw [@List.filter_cons_of_neg _ (isStale gen) (rep e) (List.map rep l)
        (fun hc => hs ((hstale e) ▸ hc))]
      rw [@List.filter_cons_of_neg _ (isStale gen) e l hs]
      exact ih

theorem staleNames_fsWrite (d : FsDir) (n c : String) (gen : List String)
    (hn : n ∈ gen) : staleNames (fsWrite d n c) gen = staleNames d gen := by
  have hstale_n : ∀ (cc : String), isStale gen (n, cc) = false := by
    intro cc
    unfold isStale
    rw [show (gen.contains n) = true from List.elem_iff.2 hn]
    rfl
  unfold fsWrite
  by_cases ha : d.any (fun e => e.1 = n) = true
  · rw [if_pos ha]
    have hfst : ∀ e : String × String,
        ((fun e => if e.1 = n then (n, c) else e) e).1 = e.1 := by
      intro e
      show (if e.1 = n then (n, c) else e).1 = e.1
      by_cases h : e.1 = n
      · rw [if_pos h]; exact h.symm
      · rw [if_neg h]
    have hstale : ∀ e : String × String,
        isStale gen ((fun e => if e.1 = n then (n, c) else e) e) = isStale gen e := by
      intro e
      show isStale gen (if e.1 = n then (n, c) else e) = isStale gen e
      by_cases h : e.1 = n
      · rw [if_pos h]
        rw [hstale_n c]
        obtain ⟨e1, e2⟩ := e
        have h1 : e1 = n := h
        rw [h1, hstale_n e2]
      · rw [if_neg h]
    unfold staleNames staleCandidates
    rw [filter_key_map isYml _ hfst d, filter_key_map isYaml _ hfst d]
    rw [← List.map_append]
    exact filter_stale_map_fst gen _ hfst hstale _
  · rw [if_neg ha]
    have h1 : List.filter (isStale gen) (List.filter (fun e => isYml e.1) [(n, c)]) = [] := by
      by_cases hy : isYml n = true
      · rw [show List.filter (fun e => isYml e.1) [(n, c)] = [(n, c)] from by simp [hy]]
        simp [hstale_n c]
      · rw [show List.filter (fun e => isYml e.1) [(n, c)] = [] from by
          simp [Bool.eq_false_iff.2 hy]]
        rfl
    have h2 : List.filter (isStale gen) (List.filter (fun e => isYaml e.1) [(n, c)]) = [] := by
      by_cases hy : isYaml n = true
      · rw [show List.filter (fun e => isYaml e.1) [(n, c)] = [(n, c)] from by simp [hy]]
        simp [hstale_n c]
      · rw [show List.filter (fun e => isYaml e.1) [(n, c)] = [] from by
          simp [Bool.eq_false_iff.2 hy]]
        rfl
    unfold staleNames staleCandidates
    simp only [List.filter_append]
    rw [h1, h2]
    rw [List.append_nil, List.append_nil]

theorem staleNames_applyWrites (ws : List (String × String)) (d : FsDir)
    (gen : List String) (h : ∀ x ∈ ws, x.1 ∈ gen) :
    staleNames (applyWrites d ws) gen = staleNames d gen := by
  induction ws generalizing d with
  | nil => rfl
  | cons w ws ih =>
    show staleNames (applyWrites (fsWrite d w.1 w.2) ws) gen = _
    rw [ih (fsWrite d w.1 w.2) (fun x hx => h x (List.mem_cons_of_mem w hx))]
    exact staleNames_fsWrite d w.1 w.2 gen (h w (List.mem_cons_self w ws))

/-! ### Behaviour of `load_templates` by case -/

theorem found_empty_lookup_none (ty : String) (tdir : Option FsDir)
    (h : foundTemplates ty tdir = []) :
    (tdir.getD []).lookup (ty ++ ".template.yml") = none := by
  cases tdir with
  | none => rfl
  | some L =>
    rw [foundTemplates_some] at h
    cases hl : L.lookup (ty ++ ".template.yml") with
    | none => exact hl
    | some c =>
      rw [hl] at h
      simp at h

theorem load_templates_found (ty : String) (tdir : Option FsDir) (b : Option String)
    (bp : String) (m : Bool) (hne : foundTemplates ty tdir ≠ []) :
    load_templates ty tdir b bp m = Except.ok ⟨foundTemplates ty tdir, tdir⟩ := by
  have hfe : (foundTemplates ty tdir).isEmpty = false := by
    cases hft : foundTemplates ty tdir with
    | nil => exact absurd hft hne
    | cons a l => rfl
  unfold load_templates
  rw [if_neg (fun hcond => by rw [hfe] at hcond; exact Bool.noConfusion hcond.1)]
  rw [if_neg (fun hcond => by rw [hfe] at hcond; exact Bool.noConfusion hcond)]

theorem load_templates_err_noneFound (ty : String) (tdir : Option FsDir) (b : Option String)
    (bp : String) (m : Bool) (hne : ty ≠ "package")
    (hfound : foundTemplates ty tdir = []) :
    load_templates ty tdir b bp m =
      Except.error ("No templates found for type: " ++ ty) := by
  unfold load_templates
  rw [if_neg (fun hcond => hne hcond.2)]
  rw [if_pos (by rw [hfound]; rfl)]

theorem load_templates_bundled_missing (ty : String) (tdir : Option FsDir) (bp : String)
    (m : Bool) (hpkg : ty = "package") (hfound : foundTemplates ty tdir = []) :
    load_templates ty tdir none bp m =
      Except.error ("Bundled default template missing: " ++ bp) := by
  unfold load_templates
  rw [if_pos ⟨by rw [hfound]; rfl, hpkg⟩]

theorem load_templates_bundled_diffm (ty : String) (tdir : Option FsDir) (bc bp : String)
    (hpkg : ty = "package") (hfound : foundTemplates ty tdir = []) :
    load_templates ty tdir (some bc) bp true = Except.ok ⟨[("", bc)], tdir⟩ := by
  unfold load_templates
  rw [if_pos ⟨by rw [hfound]; rfl, hpkg⟩]
  rfl

theorem load_templates_bundled_write (ty : String) (tdir : Option FsDir) (bc bp : String)
    (hpkg : ty = "package") (hfound : foundTemplates ty tdir = []) :
    load_templates ty tdir (some bc) bp false =
      Except.ok ⟨[("", bc)], some ((tdir.getD []) ++ [("package.template.yml", bc)])⟩ := by
  have hstep : load_templates ty tdir (some bc) bp false =
      Except.ok ⟨[("", bc)], some (fsWrite (tdir.getD []) "package.template.yml" bc)⟩ := by
    unfold load_templates
    rw [if_pos ⟨by rw [hfound]; rfl, hpkg⟩]
    rfl
  rw [hstep]
  rw [fsWrite_of_lookup_none (tdir.getD []) "package.template.yml" bc ?hnone]
  case hnone =>
    have hlk := found_empty_lookup_none ty tdir hfound
    rw [hpkg] at hlk
    rw [show ("package" ++ ".template.yml") = "package.template.yml" from rfl] at hlk
    exact hlk

/-! ### Preservation of the diff/write simulation invariant -/

theorem tmplRel_cache_extend (b : Option String)
    (cache : List (String × List (String × String))) (x : String × List (String × String))
    (dt wt : Option FsDir) (h : TmplRel b cache dt wt) :
    TmplRel b (cache ++ [x]) dt wt := by
  rcases h with h | ⟨bc, hb, hsome, hw⟩
  · exact Or.inl h
  · exact Or.inr ⟨bc, hb, lookup_isSome_append cache [x] "package" hsome, hw⟩

theorem modeRel_extend_cache (b : Option String) (fs0wf : Option FsDir)
    (d w : LoopSt) (hR : ModeRel b fs0wf d w) (ty : String)
    (tmpls : List (String × String)) (dt wt : Option FsDir)
    (htr : TmplRel b (d.cache ++ [(ty, tmpls)]) dt wt) :
    ModeRel b fs0wf
      { d with cache := d.cache ++ [(ty, tmpls)], tmplDir := dt }
      { w with cache := w.cache ++ [(ty, tmpls)], tmplDir := wt } := by
  obtain ⟨hc, hg, hcw, hdw, hwc, hdwf, hwwf, hmap, _⟩ := hR
  exact ⟨by show d.cache ++ _ = w.cache ++ _; rw [hc], hg, hcw, hdw, hwc, hdwf,
    hwwf, hmap, htr⟩

theorem modeRel_processTemplates (render : String → Package → Except String String)
    (b : Option String) (fs0wf : Option FsDir) (p : Package)
    (ts : List (String × String)) (d w : LoopSt) (hR : ModeRel b fs0wf d w) :
    RelOut b fs0wf (processTemplates render true p ts d)
      (processTemplates render false p ts w) := by
  induction ts generalizing d w with
  | nil => exact hR
  | cons e rest ih =>
    obtain ⟨suffix, tmpl⟩ := e
    cases hr : render tmpl p with
    | error e2 =>
      rw [processTemplates_step_err render true p suffix tmpl rest d e2
        (generate_workflow_err render p tmpl d.wfDir true suffix e2 hr)]
      rw [processTemplates_step_err render false p suffix tmpl rest w e2
        (generate_workflow_err render p tmpl w.wfDir false suffix e2 hr)]
      exact ⟨rfl, hR⟩
    | ok body =>
      rw [processTemplates_step render true p suffix tmpl rest d
        (workflow_filename p suffix) d.wfDir []
        [(workflow_filename p suffix, autogen_comment ++ body)]
        (generate_workflow_diffm render p tmpl d.wfDir suffix body hr)]
      rw [processTemplates_step render false p suffix tmpl rest w
        (workflow_filename p suffix)
        (some (fsWrite (w.wfDir.getD []) (workflow_filename p suffix)
          (autogen_comment ++ body)))
        [(workflow_filename p suffix, autogen_comment ++ body)] []
        (generate_workflow_write render p tmpl w.wfDir suffix body hr)]
      apply ih
      obtain ⟨hc, hg, hcw, hdw, hwc, hdwf, hwwf, hmap, htr⟩ := hR
      refine ⟨hc, ?_, ?_, ?_, ?_, hdwf, ?_, ?_, htr⟩
      · show d.generated ++ [workflow_filename p suffix] =
          w.generated ++ [workflow_filename p suffix]
        rw [hg]
      · show d.compared ++ [(workflow_filename p suffix, autogen_comment ++ body)] =
          w.written ++ [(workflow_filename p suffix, autogen_comment ++ body)]
        rw [hcw]
      · show d.written ++ [] = []
        rw [List.append_nil]
        exact hdw
      · show w.compared ++ [] = []
        rw [List.append_nil]
        exact hwc
      · show some (fsWrite (w.wfDir.getD []) (workflow_filename p suffix)
            (autogen_comment ++ body)) =
          some (applyWrites (fs0wf.getD [])
            (w.written ++ [(workflow_filename p suffix, autogen_comment ++ body)]))
        rw [applyWrites_append, hwwf]
        rfl
      · show (w.written ++ [(workflow_filename p suffix, autogen_comment ++ body)]).map
            Prod.fst = w.generated ++ [workflow_filename p suffix]
        rw [List.map_append, hmap]
        rfl

theorem modeRel_processPackage (render : String → Package → Except String String)
    (b : Option String) (bp : String) (fs0wf : Option FsDir) (p : Package)
    (d w : LoopSt) (hR : ModeRel b fs0wf d w) :
    RelOut b fs0wf (processPackage render b bp true d p)
      (processPackage render b bp false w p) := by
  have hc := hR.1
  cases hcl : d.cache.lookup p.template_type with
  | some tmpls =>
    rw [processPackage_cached render b bp true d p tmpls hcl]
    rw [processPackage_cached render b bp false w p tmpls (by rw [← hc]; exact hcl)]
    exact modeRel_processTemplates render b fs0wf p tmpls d w hR
  | none =>
    have hclw : w.cache.lookup p.template_type = none := by rw [← hc]; exact hcl
    have htr := hR.2.2.2.2.2.2.2.2
    rcases htr with heq | ⟨bc, hb, hsome, hwt⟩
    · by_cases hfound : foundTemplates p.template_type d.tmplDir = []
      · by_cases hpkg : p.template_type = "package"
        · cases hbun : b with
          | none =>
            rw [hbun] at hR
            rw [processPackage_load_err render none bp true d p _ hcl
              (load_templates_bundled_missing p.template_type d.tmplDir bp true
                hpkg hfound)]
            rw [processPackage_load_err render none bp false w p _ hclw
              (by rw [heq]
                  exact load_templates_bundled_missing p.template_type d.tmplDir bp false
                    hpkg hfound)]
            exact ⟨rfl, hR⟩
          | some bc2 =>
            rw [hbun] at hR
            rw [processPackage_load render (some bc2) bp true d p [("", bc2)] d.tmplDir hcl
              (load_templates_bundled_diffm p.template_type d.tmplDir bc2 bp
                hpkg hfound)]
            rw [processPackage_load render (some bc2) bp false w p [("", bc2)]
              (some ((d.tmplDir.getD []) ++ [("package.template.yml", bc2)])) hclw
              (by rw [heq]
                  exact load_templates_bundled_write p.template_type d.tmplDir bc2 bp
                    hpkg hfound)]
            apply modeRel_processTemplates
            apply modeRel_extend_cache (some bc2) fs0wf d w hR
            refine Or.inr ⟨bc2, rfl, ?_, rfl⟩
            have hcl' : d.cache.lookup "package" = none := by rw [← hpkg]; exact hcl
            rw [show (p.template_type, [("", bc2)]) = ("package", [("", bc2)]) from by
              rw [hpkg]]
            rw [lookup_append_self_of_none d.cache "package" [("", bc2)] hcl']
            rfl
        · rw [processPackage_load_err render b bp true d p _ hcl
            (load_templates_err_noneFound p.template_type d.tmplDir b bp true hpkg hfound)]
          rw [processPackage_load_err render b bp false w p _ hclw
            (by rw [heq]
                exact load_templates_err_noneFound p.template_type d.tmplDir b bp false
                  hpkg hfound)]
          exact ⟨rfl, hR⟩
      · rw [processPackage_load render b bp true d p
          (foundTemplates p.template_type d.tmplDir) d.tmplDir hcl
          (load_templates_found p.template_type d.tmplDir b bp true hfound)]
        have hlw : load_templates p.template_type w.tmplDir b bp false =
            Except.ok ⟨foundTemplates p.template_type d.tmplDir, w.tmplDir⟩ := by
          rw [heq]
          exact load_templates_found p.template_type d.tmplDir b bp false hfound
        rw [processPackage_load render b bp false w p
          (foundTemplates p.template_type d.tmplDir) w.tmplDir hclw hlw]
        apply modeRel_processTemplates
        apply modeRel_extend_cache b fs0wf d w hR
        exact tmplRel_cache_extend b d.cache _ _ _ (Or.inl heq)
    · have hpkgne : p.template_type ≠ "package" := by
        intro h
        rw [h] at hcl
        rw [hcl] at hsome
        cases hsome
      have hfw : foundTemplates p.template_type w.tmplDir =
          foundTemplates p.template_type d.tmplDir := by
        rw [hwt]
        exact foundTemplates_delta p.template_type d.tmplDir bc hpkgne
      by_cases hfound : foundTemplates p.template_type d.tmplDir = []
      · rw [processPackage_load_err render b bp true d p _ hcl
          (load_templates_err_noneFound p.template_type d.tmplDir b bp true hpkgne hfound)]
        rw [processPackage_load_err render b bp false w p _ hclw
          (load_templates_err_noneFound p.template_type w.tmplDir b bp false hpkgne
            (by rw [hfw]; exact hfound))]
        exact ⟨rfl, hR⟩
      · rw [processPackage_load render b bp true d p
          (foundTemplates p.template_type d.tmplDir) d.tmplDir hcl
          (load_templates_found p.template_type d.tmplDir b bp true hfound)]
        have hlw : load_templates p.template_type w.tmplDir b bp false =
            Except.ok ⟨foundTemplates p.template_type d.tmplDir, w.tmplDir⟩ := by
          rw [← hfw]
          exact load_templates_found p.template_type w.tmplDir b bp false
            (by rw [hfw]; exact hfound)
        rw [processPackage_load render b bp false w p
          (foundTemplates p.template_type d.tmplDir) w.tmplDir hclw hlw]
        apply modeRel_processTemplates
        apply modeRel_extend_cache b fs0wf d w hR
        exact Or.inr ⟨bc, hb, lookup_isSome_append d.cache _ "package" hsome, hwt⟩

theorem modeRel_processAll (render : String → Package → Except String String)
    (b : Option String) (bp : String) (fs0wf : Option FsDir) (ps : List Package)
    (d w : LoopSt) (hR : ModeRel b fs0wf d w) :
    RelOut b fs0wf (processAll render b bp true ps d)
      (processAll render b bp false ps w) := by
  induction ps generalizing d w with
  | nil => exact hR
  | cons p ps ih =>
    have hstep := modeRel_processPackage render b bp fs0wf p d w hR
    cases hd : processPackage render b bp true d p with
    | fail e d' =>
      cases hw : processPackage render b bp false w p with
      | fail e2 w' =>
        rw [hd, hw] at hstep
        have hstep' : e = e2 ∧ ModeRel b fs0wf d' w' := hstep
        rw [processAll_cons_fail render b bp true p ps d d' e hd]
        rw [processAll_cons_fail render b bp false p ps w w' e2 hw]
        exact hstep'
      | ok w' =>
        rw [hd, hw] at hstep
        exact False.elim hstep
    | ok d' =>
      cases hw : processPackage render b bp false w p with
      | fail e2 w' =>
        rw [hd, hw] at hstep
        exact False.elim hstep
      | ok w' =>
        rw [hd, hw] at hstep
        rw [processAll_cons_ok render b bp true p ps d d' hd]
        rw [processAll_cons_ok render b bp false p ps w w' hw]
        exact ih d' w' hstep

/-! ### Claim C3 -/

/-- C3: on the same workspace state, the (path, banner-plus-body text) pairs
a diff-preview run compares against the existing files are exactly the
pairs a write-mode run writes, and the files diff mode reports as
would-be-removed are exactly the files write mode deletes. -/
theorem diff_preview_matches_write (inp : RunInput) (fs0 : RunFs) :
    (main inp fs0 true).compared = (main inp fs0 false).written
    ∧ (main inp fs0 true).wouldRemove = (main inp fs0 false).removed := by
  have hrel : RelOut inp.bundled fs0.workflowsDir
      (mainLoop inp fs0 true) (mainLoop inp fs0 false) := by
    apply modeRel_processAll
    exact ⟨rfl, rfl, rfl, rfl, rfl, rfl, rfl, rfl, Or.inl rfl⟩
  unfold main
  by_cases hroot : (inp.rootGiven && !(is_workspace_root inp.tree.manifest)) = true
  · simp only [if_pos hroot]
    exact ⟨trivial, trivial⟩
  · simp only [if_neg hroot]
    cases hd : mainLoop inp fs0 true with
    | fail e d' =>
      cases hw : mainLoop inp fs0 false with
      | fail e2 w' =>
        rw [hd, hw] at hrel
        have hrel' : e = e2 ∧ ModeRel inp.bundled fs0.workflowsDir d' w' := hrel
        exact ⟨hrel'.2.2.2.1, rfl⟩
      | ok w' =>
        rw [hd, hw] at hrel
        exact False.elim hrel
    | ok d' =>
      cases hw : mainLoop inp fs0 false with
      | fail e2 w' =>
        rw [hd, hw] at hrel
        exact False.elim hrel
      | ok w' =>
        rw [hd, hw] at hrel
        have hR : ModeRel inp.bundled fs0.workflowsDir d' w' := hrel
        obtain ⟨hc, hg, hcw, hdw, hwc, hdwf, hwwf, hmap, htr⟩ := hR
        refine ⟨hcw, ?_⟩
        show staleNames (d'.wfDir.getD []) d'.generated =
          staleNames (w'.wfDir.getD []) w'.generated
        rw [hdwf, hwwf, hg]
        rw [show (some (applyWrites (fs0.workflowsDir.getD []) w'.written)).getD [] =
          applyWrites (fs0.workflowsDir.getD []) w'.written from rfl]
        symm
        apply staleNames_applyWrites
        intro x hx
        rw [← hmap]
        exact List.mem_map_of_mem Prod.fst hx

/-- Witness for C6: template type `"ci"`, a primary and an `"extra"`
template, and a junk file `ci.a.b.template.yml` with an extra dot segment
that produces nothing. -/
theorem multi_template_two_outputs_witness :
    ∃ st', processPackage fixtureRender none "bp" false fixtureLoopCi fixturePkgCi
        = LoopOut.ok st'
      ∧ st'.generated = fixtureLoopCi.generated ++
          ["ci" ++ "-" ++ fixturePkgCi.name ++ ".yml",
           "ci" ++ "-" ++ "extra" ++ "-" ++ fixturePkgCi.name ++ ".yml"]
      ∧ st'.written = fixtureLoopCi.written ++
          [("ci" ++ "-" ++ fixturePkgCi.name ++ ".yml",
            autogen_comment ++ ("T1" ++ "|" ++ fixturePkgCi.package_name)),
           ("ci" ++ "-" ++ "extra" ++ "-" ++ fixturePkgCi.name ++ ".yml",
            autogen_comment ++ ("T2" ++ "|" ++ fixturePkgCi.package_name))] :=
  multi_template_two_outputs "ci" (by decide) "T1" "T2" [("ci.a.b.template.yml", "J")]
    (fun e he => by
      rcases List.mem_cons.1 he with h | h
      · rw [h]; decide
      · cases h)
    (fun e he s hs heq => by
      rcases List.mem_cons.1 he with h | h
      · have hsome := extraTemplateSuffix_of_shape "ci" s (by decide) hs
        rw [← heq, h] at hsome
        have hnone : extraTemplateSuffix "ci" ("ci.a.b.template.yml", "J").1 = none := by
          decide
        rw [hnone] at hsome
        cases hsome
      · cases h)
    fixturePkgCi rfl fixtureRender
    ("T1" ++ "|" ++ fixturePkgCi.package_name) ("T2" ++ "|" ++ fixturePkgCi.package_name)
    rfl rfl fixtureLoopCi rfl rfl none "bp"

/-! ### Run-twice idempotence: support lemmas -/

theorem processTemplates_cache_tmpl (render : String → Package → Except String String)
    (m : Bool) (p : Package) (ts : List (String × String)) (st : LoopSt) :
    (processTemplates render m p ts st).st.cache = st.cache ∧
    (processTemplates render m p ts st).st.tmplDir = st.tmplDir := by
  induction ts generalizing st with
  | nil => exact ⟨rfl, rfl⟩
  | cons e rest ih =>
    obtain ⟨suffix, tmpl⟩ := e
    cases hg : generate_workflow render p tmpl st.wfDir m suffix with
    | error e2 =>
      rw [processTemplates_step_err render m p suffix tmpl rest st e2 hg]
      exact ⟨rfl, rfl⟩
    | ok g =>
      obtain ⟨pth, wfd, wr, cp⟩ := g
      rw [processTemplates_step render m p suffix tmpl rest st pth wfd wr cp hg]
      exact ih _

theorem lookup_append_none_of_ne {β : Type} (l : List (String × β)) (k k' : String)
    (v : β) (h : l.lookup k = none) (hne : k ≠ k') :
    ((l ++ [(k', v)]).lookup k) = none := by
  rw [lookup_append, h]
  simp [List.lookup, beq_eq_false_iff_ne.2 hne]

theorem foundTemplates_pkg_mat (t0 : Option FsDir) (bc : String)
    (h : foundTemplates "package" t0 = []) :
    foundTemplates "package"
      (some ((t0.getD []) ++ [("package.template.yml", bc)])) = [("", bc)] := by
  have hlk : (t0.getD []).lookup ("package" ++ ".template.yml") = none :=
    found_empty_lookup_none "package" t0 h
  have hlk2 : (((t0.getD []) ++ [("package.template.yml", bc)]).lookup
      ("package" ++ ".template.yml")) = some bc := by
    rw [lookup_append, hlk]
    rw [show ("package" ++ ".template.yml" : String) = "package.template.yml" from rfl]
    exact lookup_cons_self "package.template.yml" bc []
  have hext : (t0.getD []).filterMap
      (fun e => (extraTemplateSuffix "package" e.1).map (fun s => (s, e.2))) = [] := by
    cases ht : t0 with
    | none => rfl
    | some L =>
      rw [ht] at h
      rw [foundTemplates_some] at h
      exact (List.append_eq_nil.1 h).2
  rw [foundTemplates_some, hlk2]
  rw [List.filterMap_append, hext]
  rw [show List.filterMap (fun e => (extraTemplateSuffix "package" e.1).map
    (fun s => (s, e.2))) [("package.template.yml", bc)] = [] from by
      simp [extra_pkgfile_none]]
  rfl

theorem staleNames_filter_swept (L : FsDir) (gen : List String) :
    staleNames (L.filter (fun e => !((staleNames L gen).contains e.1))) gen = [] := by
  rw [List.eq_nil_iff_forall_not_mem]
  intro name hmem
  obtain ⟨c, hin, hy, hs⟩ := (stale_name_mem _ gen name).1 hmem
  obtain ⟨hinL, hcond⟩ := List.mem_filter.1 hin
  have hstale : name ∈ staleNames L gen :=
    (stale_name_mem L gen name).2 ⟨c, hinL, hy, hs⟩
  rw [Bool.not_eq_true', Bool.eq_false_iff] at hcond
  exact hcond (List.elem_iff.2 hstale)

theorem td1_processTemplates (render : String → Package → Except String String)
    (m : Bool) (p : Package) (ts : List (String × String)) (st : LoopSt)
    (b : Option String) (t0 : Option FsDir) (h : Td1 b t0 st.cache st.tmplDir) :
    Td1 b t0 (processTemplates render m p ts st).st.cache
      (processTemplates render m p ts st).st.tmplDir := by
  obtain ⟨hc, ht⟩ := processTemplates_cache_tmpl render m p ts st
  rw [hc, ht]
  exact h

theorem td1_processPackage (render : String → Package → Except String String)
    (b : Option String) (bp : String) (st : LoopSt) (p : Package)
    (t0 : Option FsDir) (h : Td1 b t0 st.cache st.tmplDir) :
    Td1 b t0 (processPackage render b bp false st p).st.cache
      (processPackage render b bp false st p).st.tmplDir := by
  cases hcl : st.cache.lookup p.template_type with
  | some tmpls =>
    rw [processPackage_cached render b bp false st p tmpls hcl]
    exact td1_processTemplates render false p tmpls st b t0 h
  | none =>
    by_cases hfound : foundTemplates p.template_type st.tmplDir = []
    · by_cases hpkg : p.template_type = "package"
      · cases hbun : b with
        | none =>
          rw [hbun] at h
          rw [processPackage_load_err render none bp false st p _ hcl
            (load_templates_bundled_missing p.template_type st.tmplDir bp false
              hpkg hfound)]
          exact h
        | some bc2 =>
          rw [hbun] at h
          have ht0 : st.tmplDir = t0 := by
            rcases h with h1 | ⟨bc, hb, hfe, hsome, hmat⟩
            · exact h1
            · exfalso
              rw [hpkg] at hcl
              rw [hcl] at hsome
              cases hsome
          rw [processPackage_load render (some bc2) bp false st p [("", bc2)]
            (some ((st.tmplDir.getD []) ++ [("package.template.yml", bc2)])) hcl
            (load_templates_bundled_write p.template_type st.tmplDir bc2 bp
              hpkg hfound)]
          apply td1_processTemplates
          refine Or.inr ⟨bc2, rfl, ?_, ?_, ?_⟩
          · rw [← ht0, ← hpkg]
            exact hfound
          · show ((st.cache ++ [(p.template_type, [("", bc2)])]).lookup "package").isSome
              = true
            rw [show (p.template_type, [("", bc2)]) = ("package", [("", bc2)]) from by
              rw [hpkg]]
            rw [lookup_append_self_of_none st.cache "package" [("", bc2)]
              (by rw [← hpkg]; exact hcl)]
            rfl
          · show some ((st.tmplDir.getD []) ++ [("package.template.yml", bc2)]) = _
            rw [ht0]
      · rw [processPackage_load_err render b bp false st p _ hcl
          (load_templates_err_noneFound p.template_type st.tmplDir b bp false
            hpkg hfound)]
        exact h
    · rw [processPackage_load render b bp false st p
        (foundTemplates p.template_type st.tmplDir) st.tmplDir hcl
        (load_templates_found p.template_type st.tmplDir b bp false hfound)]
      apply td1_processTemplates
      rcases h with h1 | ⟨bc, hb, hfe, hsome, hmat⟩
      · exact Or.inl h1
      · exact Or.inr ⟨bc, hb, hfe,
          lookup_isSome_append st.cache _ "package" hsome, hmat⟩

theorem td1_processAll (render : String → Package → Except String String)
    (b : Option String) (bp : String) (ps : List Package) (st : LoopSt)
    (t0 : Option FsDir) (h : Td1 b t0 st.cache st.tmplDir) :
    Td1 b t0 (processAll render b bp false ps st).st.cache
      (processAll render b bp false ps st).st.tmplDir := by
  induction ps generalizing st with
  | nil => exact h
  | cons p ps ih =>
    have hstep := td1_processPackage render b bp st p t0 h
    cases hd : processPackage render b bp false st p with
    | fail e st' =>
      rw [hd] at hstep
      rw [processAll_cons_fail render b bp false p ps st st' e hd]
      exact hstep
    | ok st' =>
      rw [hd] at hstep
      rw [processAll_cons_ok render b bp false p ps st st' hd]
      exact ih st' hstep

theorem idemRel_extend_cache (b : Option String) (t0 : Option FsDir) (base2 : FsDir)
    (s1 s2 : LoopSt) (hR : IdemRel b t0 base2 s1 s2) (ty : String)
    (tmpls : List (String × String)) (t1' t2' : Option FsDir)
    (htd : TdRel b t0 (s1.cache ++ [(ty, tmpls)]) t1' t2') :
    IdemRel b t0 base2
      { s1 with cache := s1.cache ++ [(ty, tmpls)], tmplDir := t1' }
      { s2 with cache := s2.cache ++ [(ty, tmpls)], tmplDir := t2' } := by
  obtain ⟨hc, hg, hw, hwf, hmap, _⟩ := hR
  exact ⟨by show s2.cache ++ _ = s1.cache ++ _; rw [hc], hg, hw, hwf, hmap, htd⟩

theorem idemRel_processTemplates (render : String → Package → Except String String)
    (b : Option String) (t0 : Option FsDir) (base2 : FsDir) (p : Package)
    (ts : List (String × String)) (s1 s2 : LoopSt) (hR : IdemRel b t0 base2 s1 s2) :
    IdemOut b t0 base2 (processTemplates render false p ts s1)
      (processTemplates render false p ts s2) := by
  induction ts generalizing s1 s2 with
  | nil => exact hR
  | cons e rest ih =>
    obtain ⟨suffix, tmpl⟩ := e
    cases hr : render tmpl p with
    | error e2 =>
      rw [processTemplates_step_err render false p suffix tmpl rest s1 e2
        (generate_workflow_err render p tmpl s1.wfDir false suffix e2 hr)]
      rw [processTemplates_step_err render false p suffix tmpl rest s2 e2
        (generate_workflow_err render p tmpl s2.wfDir false suffix e2 hr)]
      exact ⟨rfl, hR⟩
    | ok body =>
      rw [processTemplates_step render false p suffix tmpl rest s1
        (workflow_filename p suffix)
        (some (fsWrite (s1.wfDir.getD []) (workflow_filename p suffix)
          (autogen_comment ++ body)))
        [(workflow_filename p suffix, autogen_comment ++ body)] []
        (generate_workflow_write render p tmpl s1.wfDir suffix body hr)]
      rw [processTemplates_step render false p suffix tmpl rest s2
        (workflow_filename p suffix)
        (some (fsWrite (s2.wfDir.getD []) (workflow_filename p suffix)
          (autogen_comment ++ body)))
        [(workflow_filename p suffix, autogen_comment ++ body)] []
        (generate_workflow_write render p tmpl s2.wfDir suffix body hr)]
      apply ih
      obtain ⟨hc, hg, hw, hwf, hmap, htd⟩ := hR
      refine ⟨hc, ?_, ?_, ?_, ?_, htd⟩
      · show s2.generated ++ [workflow_filename p suffix] =
          s1.generated ++ [workflow_filename p suffix]
        rw [hg]
      · show s2.written ++ [(workflow_filename p suffix, autogen_comment ++ body)] =
          s1.written ++ [(workflow_filename p suffix, autogen_comment ++ body)]
        rw [hw]
      · show some (fsWrite (s2.wfDir.getD []) (workflow_filename p suffix)
            (autogen_comment ++ body)) =
          some (applyWrites base2
            (s2.written ++ [(workflow_filename p suffix, autogen_comment ++ body)]))
        rw [applyWrites_append, hwf]
        rfl
      · show (s2.written ++ [(workflow_filename p suffix, autogen_comment ++ body)]).map
            Prod.fst = s2.generated ++ [workflow_filename p suffix]
        rw [List.map_append, hmap]
        rfl

theorem idemRel_processPackage (render : String → Package → Except String String)
    (b : Option String) (bp : String) (t0 : Option FsDir) (base2 : FsDir)
    (p : Package) (s1 s2 : LoopSt) (hR : IdemRel b t0 base2 s1 s2) :
    IdemOut b t0 base2 (processPackage render b bp false s1 p)
      (processPackage render b bp false s2 p) := by
  have hc := hR.1
  cases hcl : s1.cache.lookup p.template_type with
  | some tmpls =>
    rw [processPackage_cached render b bp false s1 p tmpls hcl]
    rw [processPackage_cached render b bp false s2 p tmpls (by rw [hc]; exact hcl)]
    exact idemRel_processTemplates render b t0 base2 p tmpls s1 s2 hR
  | none =>
    have hcl2 : s2.cache.lookup p.template_type = none := by rw [hc]; exact hcl
    have htd := hR.2.2.2.2.2
    rcases htd with ⟨h1, h2⟩ | ⟨bc, hb, hfe, h1, hcp, h2⟩ | ⟨bc, hb, hfe, hcp, h1, h2⟩
    · -- both runs still at the original template directory
      have hsame : foundTemplates p.template_type s2.tmplDir =
          foundTemplates p.template_type s1.tmplDir := by rw [h1, h2]
      by_cases hfound : foundTemplates p.template_type s1.tmplDir = []
      · by_cases hpkg : p.template_type = "package"
        · cases hbun : b with
          | none =>
            rw [hbun] at hR
            rw [processPackage_load_err render none bp false s1 p _ hcl
              (load_templates_bundled_missing p.template_type s1.tmplDir bp false
                hpkg hfound)]
            rw [processPackage_load_err render none bp false s2 p _ hcl2
              (load_templates_bundled_missing p.template_type s2.tmplDir bp false
                hpkg (by rw [hsame]; exact hfound))]
            exact ⟨rfl, hR⟩
          | some bc2 =>
            rw [hbun] at hR
            rw [processPackage_load render (some bc2) bp false s1 p [("", bc2)]
              (some ((s1.tmplDir.getD []) ++ [("package.template.yml", bc2)])) hcl
              (load_templates_bundled_write p.template_type s1.tmplDir bc2 bp
                hpkg hfound)]
            rw [processPackage_load render (some bc2) bp false s2 p [("", bc2)]
              (some ((s2.tmplDir.getD []) ++ [("package.template.yml", bc2)])) hcl2
              (load_templates_bundled_write p.template_type s2.tmplDir bc2 bp
                hpkg (by rw [hsame]; exact hfound))]
            apply idemRel_processTemplates
            apply idemRel_extend_cache (some bc2) t0 base2 s1 s2 hR
            refine Or.inr (Or.inr ⟨bc2, rfl, ?_, ?_, ?_, ?_⟩)
            · rw [← h1, ← hpkg]
              exact hfound
            · show ((s1.cache ++ [(p.template_type, [("", bc2)])]).lookup
                  "package").isSome = true
              rw [show (p.template_type, [("", bc2)]) = ("package", [("", bc2)]) from by
                rw [hpkg]]
              rw [lookup_append_self_of_none s1.cache "package" [("", bc2)]
                (by rw [← hpkg]; exact hcl)]
              rfl
            · rw [h1]
            · rw [h2]
        · rw [processPackage_load_err render b bp false s1 p _ hcl
            (load_templates_err_noneFound p.template_type s1.tmplDir b bp false
              hpkg hfound)]
          rw [processPackage_load_err render b bp false s2 p _ hcl2
            (load_templates_err_noneFound p.template_type s2.tmplDir b bp false
              hpkg (by rw [hsame]; exact hfound))]
          exact ⟨rfl, hR⟩
      · rw [processPackage_load render b bp false s1 p
          (foundTemplates p.template_type s1.tmplDir) s1.tmplDir hcl
          (load_templates_found p.template_type s1.tmplDir b bp false hfound)]
        have hl2 : load_templates p.template_type s2.tmplDir b bp false =
            Except.ok ⟨foundTemplates p.template_type s1.tmplDir, s2.tmplDir⟩ := by
          rw [← hsame]
          exact load_templates_found p.template_type s2.tmplDir b bp false
            (by rw [hsame]; exact hfound)
        rw [processPackage_load render b bp false s2 p
          (foundTemplates p.template_type s1.tmplDir) s2.tmplDir hcl2 hl2]
        apply idemRel_processTemplates
        apply idemRel_extend_cache b t0 base2 s1 s2 hR
        exact Or.inl ⟨h1, h2⟩
    · -- second run already holds the materialized bundled template
      by_cases hpkg : p.template_type = "package"
      · -- the first run materializes now; the second finds the file
        have hfound1 : foundTemplates p.template_type s1.tmplDir = [] := by
          rw [hpkg, h1]
          exact hfe
        have hfound2 : foundTemplates p.template_type s2.tmplDir = [("", bc)] := by
          rw [hpkg, h2]
          exact foundTemplates_pkg_mat t0 bc hfe
        rw [hb] at hR
        rw [hb]
        rw [processPackage_load render (some bc) bp false s1 p [("", bc)]
          (some ((s1.tmplDir.getD []) ++ [("package.template.yml", bc)])) hcl
          (load_templates_bundled_write p.template_type s1.tmplDir bc bp
            hpkg hfound1)]
        have hl2 : load_templates p.template_type s2.tmplDir (some bc) bp false =
            Except.ok ⟨[("", bc)], s2.tmplDir⟩ := by
          rw [← hfound2]
          exact load_templates_found p.template_type s2.tmplDir (some bc) bp false
            (by rw [hfound2]; exact fun hcon => List.noConfusion hcon)
        rw [processPackage_load render (some bc) bp false s2 p [("", bc)] s2.tmplDir
          hcl2 hl2]
        apply idemRel_processTemplates
        apply idemRel_extend_cache (some bc) t0 base2 s1 s2 hR
        refine Or.inr (Or.inr ⟨bc, rfl, hfe, ?_, ?_, h2⟩)
        · show ((s1.cache ++ [(p.template_type, [("", bc)])]).lookup
              "package").isSome = true
          rw [show (p.template_type, [("", bc)]) = ("package", [("", bc)]) from by
            rw [hpkg]]
          rw [lookup_append_self_of_none s1.cache "package" [("", bc)]
            (by rw [← hpkg]; exact hcl)]
          rfl
        · rw [h1]
      · -- other types do not see the materialized package template
        have hsame : foundTemplates p.template_type s2.tmplDir =
            foundTemplates p.template_type s1.tmplDir := by
          rw [h1, h2]
          exact foundTemplates_delta p.template_type t0 bc hpkg
        by_cases hfound : foundTemplates p.template_type s1.tmplDir = []
        · rw [processPackage_load_err render b bp false s1 p _ hcl
            (load_templates_err_noneFound p.template_type s1.tmplDir b bp false
              hpkg hfound)]
          rw [processPackage_load_err render b bp false s2 p _ hcl2
            (load_templates_err_noneFound p.template_type s2.tmplDir b bp false
              hpkg (by rw [hsame]; exact hfound))]
          exact ⟨rfl, hR⟩
        · rw [processPackage_load render b bp false s1 p
            (foundTemplates p.template_type s1.tmplDir) s1.tmplDir hcl
            (load_templates_found p.template_type s1.tmplDir b bp false hfound)]
          have hl2 : load_templates p.template_type s2.tmplDir b bp false =
              Except.ok ⟨foundTemplates p.template_type s1.tmplDir, s2.tmplDir⟩ := by
            rw [← hsame]
            exact load_templates_found p.template_type s2.tmplDir b bp false
              (by rw [hsame]; exact hfound)
          rw [processPackage_load render b bp false s2 p
            (foundTemplates p.template_type s1.tmplDir) s2.tmplDir hcl2 hl2]
          apply idemRel_processTemplates
          apply idemRel_extend_cache b t0 base2 s1 s2 hR
          refine Or.inr (Or.inl ⟨bc, hb, hfe, h1, ?_, h2⟩)
          exact lookup_append_none_of_ne s1.cache "package" p.template_type _
            hcp (fun he => hpkg he.symm)
    · -- both runs hold the materialized bundled template
      have hpkgne : p.template_type ≠ "package" := by
        intro h
        rw [h] at hcl
        rw [hcl] at hcp
        cases hcp
      have hsame : foundTemplates p.template_type s2.tmplDir =
          foundTemplates p.template_type s1.tmplDir := by rw [h1, h2]
      by_cases hfound : foundTemplates p.template_type s1.tmplDir = []
      · rw [processPackage_load_err render b bp false s1 p _ hcl
          (load_templates_err_noneFound p.template_type s1.tmplDir b bp false
            hpkgne hfound)]
        rw [processPackage_load_err render b bp false s2 p _ hcl2
          (load_templates_err_noneFound p.template_type s2.tmplDir b bp false
            hpkgne (by rw [hsame]; exact hfound))]
        exact ⟨rfl, hR⟩
      · rw [processPackage_load render b bp false s1 p
          (foundTemplates p.template_type s1.tmplDir) s1.tmplDir hcl
          (load_templates_found p.template_type s1.tmplDir b bp false hfound)]
        have hl2 : load_templates p.template_type s2.tmplDir b bp false =
            Except.ok ⟨foundTemplates p.template_type s1.tmplDir, s2.tmplDir⟩ := by
          rw [← hsame]
          exact load_templates_found p.template_type s2.tmplDir b bp false
            (by rw [hsame]; exact hfound)
        rw [processPackage_load render b bp false s2 p
          (foundTemplates p.template_type s1.tmplDir) s2.tmplDir hcl2 hl2]
        apply idemRel_processTemplates
        apply idemRel_extend_cache b t0 base2 s1 s2 hR
        exact Or.inr (Or.inr ⟨bc, hb, hfe,
          lookup_isSome_append s1.cache _ "package" hcp, h1, h2⟩)

theorem idemRel_processAll (render : String → Package → Except String String)
    (b : Option String) (bp : String) (t0 : Option FsDir) (base2 : FsDir)
    (ps : List Package) (s1 s2 : LoopSt) (hR : IdemRel b t0 base2 s1 s2) :
    IdemOut b t0 base2 (processAll render b bp false ps s1)
      (processAll render b bp false ps s2) := by
  induction ps generalizing s1 s2 with
  | nil => exact hR
  | cons p ps ih =>
    have hstep := idemRel_processPackage render b bp t0 base2 p s1 s2 hR
    cases hd : processPackage render b bp false s1 p with
    | fail e s1' =>
      cases hw : processPackage render b bp false s2 p with
      | fail e2 s2' =>
        rw [hd, hw] at hstep
        have hstep' : e = e2 ∧ IdemRel b t0 base2 s1' s2' := hstep
        rw [processAll_cons_fail render b bp false p ps s1 s1' e hd]
        rw [processAll_cons_fail render b bp false p ps s2 s2' e2 hw]
        exact hstep'
      | ok s2' =>
        rw [hd, hw] at hstep
        exact False.elim hstep
    | ok s1' =>
      cases hw : processPackage render b bp false s2 p with
      | fail e2 s2' =>
        rw [hd, hw] at hstep
        exact False.elim hstep
      | ok s2' =>
        rw [hd, hw] at hstep
        rw [processAll_cons_ok render b bp false p ps s1 s1' hd]
        rw [processAll_cons_ok render b bp false p ps s2 s2' hw]
        exact ih s1' s2' hstep

/-! ### Claim C9 -/

/-- C9: write mode is idempotent — after a successful write-mode run, a
second write-mode run on the resulting filesystem (with the workspace
manifests and the rendering engine unchanged) writes exactly the same
(path, content) pairs as the first run, and the second run's stale-file
sweep deletes nothing. -/
theorem write_mode_idempotent (inp : RunInput) (fs0 : RunFs)
    (h0 : (main inp fs0 false).exitCode = 0) :
    (main inp (main inp fs0 false).fs false).written = (main inp fs0 false).written
    ∧ (main inp (main inp fs0 false).fs false).removed = [] := by
  by_cases hroot : (inp.rootGiven && !(is_workspace_root inp.tree.manifest)) = true
  · exfalso
    have h1 : (main inp fs0 false).exitCode = 1 := by
      unfold main
      rw [if_pos hroot]
    rw [h0] at h1
    cases h1
  · cases hloop1 : mainLoop inp fs0 false with
    | fail e w1 =>
      exfalso
      have h1 : (main inp fs0 false).exitCode = 1 := by
        unfold main
        rw [if_neg hroot, hloop1]
      rw [h0] at h1
      cases h1
    | ok w1 =>
      have hmain1 : main inp fs0 false =
          { exitCode := 0,
            fs := { workflowsDir :=
                      (cleanup_stale_workflows w1.wfDir w1.generated false).1,
                    templatesDir := w1.tmplDir },
            written := w1.written, compared := w1.compared,
            removed := (cleanup_stale_workflows w1.wfDir w1.generated false).2.1,
            wouldRemove := (cleanup_stale_workflows w1.wfDir w1.generated false).2.2 } := by
        unfold main
        rw [if_neg hroot, hloop1]
      have htd1 : Td1 inp.bundled fs0.templatesDir w1.cache w1.tmplDir := by
        have h : Td1 inp.bundled fs0.templatesDir
            (mainLoop inp fs0 false).st.cache (mainLoop inp fs0 false).st.tmplDir :=
          td1_processAll inp.render inp.bundled inp.bundledPath (mainPackages inp)
            { cache := [], generated := [],
              wfDir := (mainFsAfterMkdir fs0 false).workflowsDir,
              tmplDir := fs0.templatesDir, written := [], compared := [] }
            fs0.templatesDir (Or.inl rfl)
        rw [hloop1] at h
        exact h
      have hF : (main inp fs0 false).fs =
          { workflowsDir := (cleanup_stale_workflows w1.wfDir w1.generated false).1,
            templatesDir := w1.tmplDir } := by
        rw [hmain1]
      have hinit : IdemRel inp.bundled fs0.templatesDir
          (((cleanup_stale_workflows w1.wfDir w1.generated false).1).getD [])
          { cache := [], generated := [],
            wfDir := (mainFsAfterMkdir fs0 false).workflowsDir,
            tmplDir := fs0.templatesDir, written := [], compared := [] }
          { cache := [], generated := [],
            wfDir := (mainFsAfterMkdir
              { workflowsDir := (cleanup_stale_workflows w1.wfDir w1.generated false).1,
                templatesDir := w1.tmplDir } false).workflowsDir,
            tmplDir := w1.tmplDir, written := [], compared := [] } := by
        refine ⟨rfl, rfl, rfl, rfl, rfl, ?_⟩
        rcases htd1 with h1 | ⟨bc, hb, hfe, _, hmat⟩
        · exact Or.inl ⟨rfl, h1⟩
        · exact Or.inr (Or.inl ⟨bc, hb, hfe, rfl, rfl, hmat⟩)
      have hsim : IdemOut inp.bundled fs0.templatesDir
          (((cleanup_stale_workflows w1.wfDir w1.generated false).1).getD [])
          (mainLoop inp fs0 false)
          (mainLoop inp
            { workflowsDir := (cleanup_stale_workflows w1.wfDir w1.generated false).1,
              templatesDir := w1.tmplDir } false) :=
        idemRel_processAll inp.render inp.bundled inp.bundledPath fs0.templatesDir
          (((cleanup_stale_workflows w1.wfDir w1.generated false).1).getD [])
          (mainPackages inp) _ _ hinit
      rw [hloop1] at hsim
      rw [hF]
      rw [show (main inp fs0 false).written = w1.written from by rw [hmain1]]
      cases hloop2 : mainLoop inp
          { workflowsDir := (cleanup_stale_workflows w1.wfDir w1.generated false).1,
            templatesDir := w1.tmplDir } false with
      | fail e2 w2 =>
        rw [hloop2] at hsim
        exact False.elim hsim
      | ok w2 =>
        rw [hloop2] at hsim
        have hrel : IdemRel inp.bundled fs0.templatesDir
            (((cleanup_stale_workflows w1.wfDir w1.generated false).1).getD [])
            w1 w2 := hsim
        obtain ⟨hcch, hgen, hwrt, hwfd2, hmap, _⟩ := hrel
        constructor
        · unfold main
          rw [if_neg hroot, hloop2]
          exact hwrt
        · unfold main
          rw [if_neg hroot, hloop2]
          show staleNames ((w2.wfDir).getD []) w2.generated = []
          rw [hwfd2]
          rw [show (some (applyWrites
              (((cleanup_stale_workflows w1.wfDir w1.generated false).1).getD [])
              w2.written)).getD [] =
            applyWrites
              (((cleanup_stale_workflows w1.wfDir w1.generated false).1).getD [])
              w2.written from rfl]
          rw [staleNames_applyWrites w2.written _ w2.generated
            (fun x hx => by rw [← hmap]; exact List.mem_map_of_mem Prod.fst hx)]
          rw [hgen]
          cases hwf1 : w1.wfDir with
          | none => rfl
          | some L => exact staleNames_filter_swept L w1.generated

/-- Witness for C9: the default-typed root package with the bundled
template; the first run materializes the bundled template and writes one
workflow, the second run rewrites the identical file and deletes
nothing. -/
theorem write_mode_idempotent_witness :
    (main fixtureInpDefault fixtureFsNone false).exitCode = 0 ∧
    ((main fixtureInpDefault (main fixtureInpDefault fixtureFsNone false).fs
        false).written =
      (main fixtureInpDefault fixtureFsNone false).written ∧
     (main fixtureInpDefault (main fixtureInpDefault fixtureFsNone false).fs
        false).removed = []) :=
  ⟨rfl, write_mode_idempotent fixtureInpDefault fixtureFsNone rfl⟩

end UvCodegen
